import Mathlib

/-!
Verification of the TrendGen CLI content pipeline: a shallow embedding of
the cache (src/lib/cache.ts), the trend aggregator and idea parser
(src/lib/trends.ts), the content renderer (content module), and the
pipeline orchestrator, together with theorems about their behaviour.

JavaScript strings are modelled as lists of characters, JavaScript runtime
values (the dynamically typed `any` payloads) as a `Json` inductive that
also carries `undefined`, and effectful calls (network, filesystem, model
requests) as explicit outcome parameters of type `Except`.
-/

set_option maxRecDepth 8192

namespace TrendGen

/-- JavaScript string, modelled as a list of characters. -/
abbrev Str := List Char

/-- Converts a Lean string literal to the character-list model. -/
def cs (s : String) : Str := s.toList

/-- Whitespace recognised by String.prototype.trim (the common code points). -/
def isJsSpace (c : Char) : Bool :=
  c == ' ' || c == '\t' || c == '\n' || c == '\x0b' || c == '\x0c' || c == '\r' ||
  c == ' ' || c == '﻿' || c == ' ' || c == ' '

/-- Models String.prototype.trim: strips leading and trailing whitespace. -/
def jsTrim (s : Str) : Str :=
  ((s.dropWhile isJsSpace).reverse.dropWhile isJsSpace).reverse

/-- Models String.prototype.substring(a, b): clamps both indices to the
string bounds and swaps them when `a > b`. -/
def jsSubstring (s : Str) (a b : Int) : Str :=
  let len : Int := s.length
  let a' : Nat := (min (max a 0) len).toNat
  let b' : Nat := (min (max b 0) len).toNat
  (s.take (max a' b')).drop (min a' b')

/-- Whether the pattern `pat` occurs in `s` starting at index `i`. -/
def occursAt (pat s : Str) (i : Nat) : Bool :=
  pat.isPrefixOf (s.drop i)

/-- Models String.prototype.indexOf: index of the first occurrence of
`pat`, or -1 when there is none. -/
def jsIndexOf (s pat : Str) : Int :=
  match (List.range (s.length + 1)).find? (occursAt pat s) with
  | some i => (i : Int)
  | none => -1

/-- Models String.prototype.lastIndexOf(pat, stop): the largest index
`≤ stop` at which `pat` occurs, or -1 when there is none. -/
def jsLastIndexOfFrom (s pat : Str) (stop : Nat) : Int :=
  match ((List.range (stop + 1)).filter (occursAt pat s)).getLast? with
  | some i => (i : Int)
  | none => -1

/-- Models String.prototype.lastIndexOf with no position argument. -/
def jsLastIndexOf (s pat : Str) : Int :=
  jsLastIndexOfFrom s pat s.length

/-- Models String.prototype.includes. -/
def jsIncludes (s pat : Str) : Bool :=
  ((List.range (s.length + 1)).find? (occursAt pat s)).isSome

/-- ASCII lowercasing of one character (the fragment of
String.prototype.toLowerCase exercised by the code, whose prefix table is
ASCII). -/
def asciiLower (c : Char) : Char :=
  if 'A' ≤ c && c ≤ 'Z' then Char.ofNat (c.toNat + 32) else c

/-- Models String.prototype.toLowerCase on the ASCII range. -/
def jsLower (s : Str) : Str := s.map asciiLower

mutual
/-- JavaScript runtime value: the JSON value kinds plus `undefined`.
JSON numbers are modelled as exact rationals. -/
inductive Json where
  | undefined : Json
  | null : Json
  | bool (b : Bool) : Json
  | num (q : Rat) : Json
  | str (s : Str) : Json
  | arr (elems : JsonList) : Json
  | obj (fields : JsonFields) : Json

/-- List of JSON values (spelled out so all recursion stays structural). -/
inductive JsonList where
  | nil : JsonList
  | cons (hd : Json) (tl : JsonList) : JsonList

/-- Key/value members of a JSON object, in insertion order. -/
inductive JsonFields where
  | fnil : JsonFields
  | fcons (key : Str) (val : Json) (tl : JsonFields) : JsonFields
end

/-- Builds a `JsonList` from an ordinary list. -/
def JsonList.ofList : List Json → JsonList
  | [] => .nil
  | x :: xs => .cons x (JsonList.ofList xs)

/-- Converts a `JsonList` back to an ordinary list. -/
def JsonList.toList : JsonList → List Json
  | .nil => []
  | .cons x xs => x :: xs.toList

/-- Builds object members from an ordinary association list. -/
def JsonFields.ofList : List (Str × Json) → JsonFields
  | [] => .fnil
  | (k, v) :: xs => .fcons k v (JsonFields.ofList xs)

/-- Models JavaScript truthiness: `undefined`, `null`, `false`, `0`, `NaN`
and the empty string are falsy, everything else truthy. -/
def jsTruthy : Json → Bool
  | .undefined => false
  | .null => false
  | .bool b => b
  | .num q => q != 0
  | .str s => s != []
  | .arr _ => true
  | .obj _ => true

/-- Models `x || d` on JavaScript values: `x` when truthy, else `d`. -/
def jsOr (x d : Json) : Json := if jsTruthy x then x else d

/-- Renders a rational as a decimal numeral (matches JavaScript number
formatting on integers and terminating decimals, the values the code
manipulates). -/
def numToString (q : Rat) : Str :=
  let sign : Str := if q < 0 then ['-'] else []
  let a : Rat := |q|
  let ip : Nat := a.floor.toNat
  let fr : Rat := a - (ip : Rat)
  sign ++ (Nat.repr ip).toList ++ (if fr = 0 then [] else '.' :: fracDigits fr 17)
where
  /-- Decimal digits of a fraction in [0,1), up to the given count. -/
  fracDigits (x : Rat) : Nat → Str
    | 0 => []
    | n + 1 =>
      if x = 0 then []
      else
        let y := x * 10
        let d : Nat := y.floor.toNat
        Char.ofNat (48 + d) :: fracDigits (y - (d : Rat)) n

mutual
/-- Models JavaScript string coercion (template interpolation, String(x)). -/
def jsToString : Json → Str
  | .undefined => cs "undefined"
  | .null => cs "null"
  | .bool b => if b then cs "true" else cs "false"
  | .num q => numToString q
  | .str s => s
  | .arr xs => jsToStringJoin xs
  | .obj _ => cs "[object Object]"

/-- Array elements joined with commas, as Array.prototype.toString does. -/
def jsToStringJoin : JsonList → Str
  | .nil => []
  | .cons x .nil => jsToString x
  | .cons x (.cons y tl) => jsToString x ++ ',' :: jsToStringJoin (.cons y tl)
end

/-- Numeric value of a decimal digit character, if it is one. -/
def digitVal (c : Char) : Option Nat :=
  if '0' ≤ c && c ≤ '9' then some (c.toNat - 48) else none

/-- Parses a nonempty run of decimal digits: value, digit count, rest. -/
def parseDigits : Str → Nat → Nat → Option (Nat × Nat × Str)
  | [], acc, n => if n = 0 then none else some (acc, n, [])
  | c :: r, acc, n =>
    match digitVal c with
    | some d => parseDigits r (acc * 10 + d) (n + 1)
    | none => if n = 0 then none else some (acc, n, c :: r)

/-- Parses a JSON number (sign, integer part with no leading zeros,
optional fraction, optional exponent) into an exact rational. -/
def parseNumber (s : Str) : Option (Rat × Str) :=
  let (neg, s1) := match s with
    | '-' :: r => (true, r)
    | _ => (false, s)
  let ipart : Option (Nat × Str) := match s1 with
    | '0' :: r =>
      match r with
      | c :: _ => if (digitVal c).isSome then none else some (0, r)
      | [] => some (0, [])
    | _ =>
      match parseDigits s1 0 0 with
      | some (v, _, r) =>
        match s1 with
        | '0' :: _ => none
        | _ => some (v, r)
      | none => none
  match ipart with
  | none => none
  | some (iv, r1) =>
    let fpart : Option (Nat × Nat × Str) := match r1 with
      | '.' :: r2 =>
        match parseDigits r2 0 0 with
        | some (fv, fn, r3) => some (fv, fn, r3)
        | none => none
      | _ => some (0, 0, r1)
    match fpart with
    | none => none
    | some (fv, fn, r4) =>
      let epart : Option (Int × Str) := match r4 with
        | 'e' :: r5 => parseExp r5
        | 'E' :: r5 => parseExp r5
        | _ => some (0, r4)
      match epart with
      | none => none
      | some (ev, r6) =>
        let mant : Int := (iv * 10 ^ fn + fv : Nat)
        let mant : Int := if neg then -mant else mant
        some ((mant : Rat) / ((10 : Rat) ^ fn) * (10 : Rat) ^ ev, r6)
where
  /-- Parses an exponent: optional sign then digits. -/
  parseExp (r : Str) : Option (Int × Str) :=
    let (eneg, r1) := match r with
      | '+' :: t => (false, t)
      | '-' :: t => (true, t)
      | _ => (false, r)
    match parseDigits r1 0 0 with
    | some (v, _, rest) => some (if eneg then -(v : Int) else (v : Int), rest)
    | none => none

/-- Value of a hexadecimal digit character, if it is one. -/
def hexVal (c : Char) : Option Nat :=
  if '0' ≤ c && c ≤ '9' then some (c.toNat - 48)
  else if 'a' ≤ c && c ≤ 'f' then some (c.toNat - 87)
  else if 'A' ≤ c && c ≤ 'F' then some (c.toNat - 55)
  else none

/-- Single-character JSON escapes. -/
def escChar : Char → Option Char
  | '"' => some '"'
  | '\\' => some '\\'
  | '/' => some '/'
  | 'b' => some '\x08'
  | 'f' => some '\x0c'
  | 'n' => some '\n'
  | 'r' => some '\r'
  | 't' => some '\t'
  | _ => none

/-- Parses the body of a JSON string after the opening quote, returning
the decoded content and the remainder after the closing quote. -/
def parseStringBody : Nat → Str → Option (Str × Str)
  | 0, _ => none
  | fuel + 1, s =>
    match s with
    | '"' :: r => some ([], r)
    | '\\' :: 'u' :: a :: b :: c :: d :: r =>
      match hexVal a, hexVal b, hexVal c, hexVal d with
      | some ha, some hb, some hc, some hd =>
        match parseStringBody fuel r with
        | some (content, rest) =>
          some (Char.ofNat (((ha * 16 + hb) * 16 + hc) * 16 + hd) :: content, rest)
        | none => none
      | _, _, _, _ => none
    | '\\' :: e :: r =>
      match escChar e with
      | some ch =>
        match parseStringBody fuel r with
        | some (content, rest) => some (ch :: content, rest)
        | none => none
      | none => none
    | ch :: r =>
      if ch.toNat < 32 then none
      else
        match parseStringBody fuel r with
        | some (content, rest) => some (ch :: content, rest)
        | none => none
    | [] => none

/-- Whitespace accepted between JSON tokens. -/
def jsonWs (c : Char) : Bool :=
  c == ' ' || c == '\t' || c == '\n' || c == '\r'

/-- Skips inter-token JSON whitespace. -/
def skipWs (s : Str) : Str := s.dropWhile jsonWs

mutual
/-- Fueled recursive-descent parser for one JSON value. The input is
assumed to start at a token (whitespace already skipped). -/
def parseValue : Nat → Str → Option (Json × Str)
  | 0, _ => none
  | fuel + 1, s =>
    match s with
    | 'n' :: 'u' :: 'l' :: 'l' :: r => some (.null, r)
    | 't' :: 'r' :: 'u' :: 'e' :: r => some (.bool true, r)
    | 'f' :: 'a' :: 'l' :: 's' :: 'e' :: r => some (.bool false, r)
    | '"' :: r =>
      match parseStringBody (r.length + 1) r with
      | some (content, rest) => some (.str content, rest)
      | none => none
    | '[' :: r =>
      match parseElems fuel (skipWs r) with
      | some (vs, rest) => some (.arr (JsonList.ofList vs), rest)
      | none => none
    | '{' :: r =>
      match parseMembers fuel (skipWs r) with
      | some (kvs, rest) => some (.obj (JsonFields.ofList kvs), rest)
      | none => none
    | _ =>
      match parseNumber s with
      | some (q, rest) => some (.num q, rest)
      | none => none

/-- Parses the inside of an array, positioned at `]` or the first element. -/
def parseElems : Nat → Str → Option (List Json × Str)
  | 0, _ => none
  | fuel + 1, s =>
    match s with
    | ']' :: r => some ([], r)
    | _ =>
      match parseValue fuel s with
      | some (v, r1) =>
        match parseElemsTail fuel (skipWs r1) with
        | some (vs, rest) => some (v :: vs, rest)
        | none => none
      | none => none

/-- Parses the continuation of an array after an element: `,` or `]`. -/
def parseElemsTail : Nat → Str → Option (List Json × Str)
  | 0, _ => none
  | fuel + 1, s =>
    match s with
    | ']' :: r => some ([], r)
    | ',' :: r =>
      match parseValue fuel (skipWs r) with
      | some (v, r1) =>
        match parseElemsTail fuel (skipWs r1) with
        | some (vs, rest) => some (v :: vs, rest)
        | none => none
      | none => none
    | _ => none

/-- Parses the inside of an object, positioned at `}` or the first member. -/
def parseMembers : Nat → Str → Option (List (Str × Json) × Str)
  | 0, _ => none
  | fuel + 1, s =>
    match s with
    | '}' :: r => some ([], r)
    | _ =>
      match parseMember fuel s with
      | some (kv, r1) =>
        match parseMembersTail fuel (skipWs r1) with
        | some (kvs, rest) => some (kv :: kvs, rest)
        | none => none
      | none => none

/-- Parses the continuation of an object after a member: `,` or `}`. -/
def parseMembersTail : Nat → Str → Option (List (Str × Json) × Str)
  | 0, _ => none
  | fuel + 1, s =>
    match s with
    | '}' :: r => some ([], r)
    | ',' :: r =>
      match parseMember fuel (skipWs r) with
      | some (kv, r1) =>
        match parseMembersTail fuel (skipWs r1) with
        | some (kvs, rest) => some (kv :: kvs, rest)
        | none => none
      | none => none
    | _ => none

/-- Parses one `"key": value` member. -/
def parseMember : Nat → Str → Option ((Str × Json) × Str)
  | 0, _ => none
  | fuel + 1, s =>
    match s with
    | '"' :: r =>
      match parseStringBody (r.length + 1) r with
      | some (key, r1) =>
        match skipWs r1 with
        | ':' :: r2 =>
          match parseValue fuel (skipWs r2) with
          | some (v, rest) => some ((key, v), rest)
          | none => none
        | _ => none
      | none => none
    | _ => none
end

/-- Models JSON.parse: parses the whole string as one JSON value,
requiring only whitespace to remain; `none` models a thrown SyntaxError. -/
def jsonParse (s : Str) : Option Json :=
  match parseValue (4 * s.length + 4) (skipWs s) with
  | some (j, rest) => if skipWs rest = [] then some j else none
  | none => none

/-- Numeric string conversion used by ToNumber: trimmed empty string is 0,
otherwise an optionally signed decimal numeral; anything else is NaN
(`none`). -/
def strToNumber (s : Str) : Option Rat :=
  let t := s.dropWhile isJsSpace
  let t := (t.reverse.dropWhile isJsSpace).reverse
  match t with
  | [] => some 0
  | _ =>
    let (neg, t1) := match t with
      | '-' :: r => (true, r)
      | '+' :: r => (false, r)
      | _ => (false, t)
    match parseDigits t1 0 0 with
    | some (iv, _, r1) =>
      match r1 with
      | [] => some (if neg then -(iv : Rat) else (iv : Rat))
      | '.' :: r2 =>
        match parseDigits r2 0 0 with
        | some (fv, fn, []) =>
          let v : Rat := (iv : Rat) + (fv : Rat) / (10 : Rat) ^ fn
          some (if neg then -v else v)
        | _ => none
      | _ => none
    | none => none

/-- Models JavaScript ToNumber on the value kinds the code can encounter;
`none` stands for NaN. Arrays coerce through their string form. -/
def jsToNumber : Json → Option Rat
  | .undefined => none
  | .null => some 0
  | .bool b => some (if b then 1 else 0)
  | .num q => some q
  | .str s => strToNumber s
  | .arr xs => strToNumber (jsToString (.arr xs))
  | .obj _ => none

/-- Finds the value of the last member with the given key, if any. -/
def JsonFields.lookupLast : JsonFields → Str → Option Json
  | .fnil, _ => none
  | .fcons key v tl, k =>
    match tl.lookupLast k with
    | some w => some w
    | none => if k = key then some v else none

/-- Property lookup on a JavaScript object: later duplicate keys shadow
earlier ones, and a missing property reads as `undefined`. -/
def objGet (fields : JsonFields) (k : Str) : Json :=
  match fields.lookupLast k with
  | some v => v
  | none => .undefined

/-- Models `v.prop` property access: throws a TypeError on `null` or
`undefined` (the `Except.error` carries a representative message), reads
`undefined` on primitives and arrays, and looks the key up on objects. -/
def getProp (v : Json) (k : Str) : Except Str Json :=
  match v with
  | .undefined => .error (cs "TypeError: Cannot read properties of undefined")
  | .null => .error (cs "TypeError: Cannot read properties of null")
  | .obj fields => .ok (objGet fields k)
  | _ => .ok .undefined

/-- Per-source enablement switches from the configuration
(config.sources). -/
structure SourcesConfig where
  googleTrends : Bool
  xcom : Bool
  coingecko : Bool
  redditEnabled : Bool
  newsEnabled : Bool

/-- Unified trend snapshot (interface TrendData in src/lib/trends.ts).
The dynamically typed source payloads are lists of JavaScript values. -/
structure TrendData where
  google : List Str
  xcom : List Str
  coingecko : List Json
  reddit : List Json
  news : List Json

/-- Snapshot with all five source lists empty. -/
def emptyTrendData : TrendData :=
  { google := [], xcom := [], coingecko := [], reddit := [], news := [] }

/-- Result of one settled promise, as Promise.allSettled reports it. -/
inductive Settled (α : Type) where
  | fulfilled (value : α)
  | rejected (reason : Str)

/-- Settles one adapter call: a resolve becomes fulfilled, a rejection is
captured as a value (Promise.allSettled never propagates it). -/
def settle {α : Type} : Except Str α → Settled α
  | .ok v => .fulfilled v
  | .error e => .rejected e

/-- Outcome of each of the five source-adapter calls for one run. -/
structure AdapterOutcomes where
  google : Except Str (List Str)
  xcom : Except Str (List Str)
  coingecko : Except Str (List Json)
  reddit : Except Str (List Json)
  news : Except Str (List Json)

/-- Extraction step `x.status === 'fulfilled' ? x.value : []`. -/
def settledOrEmpty {α : Type} : Settled (List α) → List α
  | .fulfilled v => v
  | .rejected _ => []

/-- Models analyzeTrends (src/lib/trends.ts): fans out the five adapter
calls (the gated ones replaced by `Promise.resolve([])` when disabled),
joins them with Promise.allSettled, and keeps fulfilled values while
failed calls degrade to empty lists. -/
def analyzeTrends (cfg : SourcesConfig) (oc : AdapterOutcomes) : TrendData :=
  let googleSuggestions := settle (if cfg.googleTrends then oc.google else .ok [])
  let xcomTrends := settle (if cfg.xcom then oc.xcom else .ok [])
  let coingeckoTrends := settle (if cfg.coingecko then oc.coingecko else .ok [])
  let redditDiscussions := settle oc.reddit
  let newsArticles := settle oc.news
  { google := settledOrEmpty googleSuggestions
  , xcom := settledOrEmpty xcomTrends
  , coingecko := settledOrEmpty coingeckoTrends
  , reddit := settledOrEmpty redditDiscussions
  , news := settledOrEmpty newsArticles }

/-- Post idea record (interface PostIdea in src/lib/trends.ts). The
fields filled from parsed model output stay dynamically typed; the
optional business_benefit is absent on the fallback ideas. -/
structure PostIdea where
  id : Str
  concept : Json
  trend_source : Json
  relevance_score : Json
  business_benefit : Option Json

/-- Models the regex match `content.match(/\[[\s\S]*\]/)`: the segment
from the first bracket that is followed by a closing bracket, greedily to
the last closing bracket of the string. -/
def extractJsonArray (content : Str) : Option Str :=
  let i := jsIndexOf content ['[']
  let j := jsLastIndexOf content [']']
  if 0 ≤ i ∧ i < j then some (jsSubstring content i (j + 1)) else none

/-- Identifier `idea_${index + 1}` assigned to the idea at `index`. -/
def ideaId (index : Nat) : Str :=
  cs "idea_" ++ (Nat.repr (index + 1)).toList

/-- Default concept `Business idea ${index + 1}`. -/
def defaultConcept (index : Nat) : Str :=
  cs "Business idea " ++ (Nat.repr (index + 1)).toList

/-- Models the per-element callback of `ideas.map(...)` in
parsePostIdeasFromResponse: each field falls back to its default when
missing or falsy, and property access on a null element throws. -/
def mapIdea (index : Nat) (idea : Json) : Except Str PostIdea := do
  let c ← getProp idea (cs "concept")
  let ts ← getProp idea (cs "trend_source")
  let rs ← getProp idea (cs "relevance_score")
  let bb ← getProp idea (cs "business_benefit")
  .ok { id := ideaId index
      , concept := jsOr c (.str (defaultConcept index))
      , trend_source := jsOr ts (.str (cs "General trend analysis"))
      , relevance_score := jsOr rs (.num (1 / 2))
      , business_benefit := some (jsOr bb (.str (cs "Provides engagement opportunity"))) }

/-- Models `ideas.map(...)` over the parsed array: the first thrown
TypeError aborts the whole map. -/
def mapIdeas (xs : List Json) : Except Str (List PostIdea) :=
  xs.enum.mapM fun p => mapIdea p.1 p.2

/-- Effective numeric relevance score used by the sort comparator. -/
def effScore (p : PostIdea) : Option Rat := jsToNumber p.relevance_score

/-- Value of the comparator `(a, b) => b.relevance_score -
a.relevance_score`; a NaN comparator result is treated as 0 by the sort,
so it collapses to 0 here. -/
def scoreCmp (a b : PostIdea) : Rat :=
  match effScore a, effScore b with
  | some x, some y => y - x
  | _, _ => 0

/-- Whether `a` may be placed before `b` under the comparator. -/
def ideaBefore (a b : PostIdea) : Prop := scoreCmp a b ≤ 0

instance : DecidableRel ideaBefore :=
  fun a b => inferInstanceAs (Decidable (scoreCmp a b ≤ 0))

/-- Models the stable `Array.prototype.sort` (stable per the language
specification) under the descending relevance-score comparator: a stable
sort with a consistent comparator is exactly the stable insertion sort of
the permitted-precedence relation. -/
def sortIdeas (l : List PostIdea) : List PostIdea :=
  List.insertionSort ideaBefore l

/-- Models `headline?.substring(0, 60)`-style optional chaining: null and
undefined short-circuit to undefined, a string is sliced, and any other
receiver throws because substring is not a function on it. -/
def optChainSubstring (v : Json) (a b : Int) : Except Str Json :=
  match v with
  | .undefined => .ok .undefined
  | .null => .ok .undefined
  | .str s => .ok (.str (jsSubstring s a b))
  | _ => .error (cs "TypeError: substring is not a function")

/-- The five fallback ideas, parameterised by the two trend_source slots
that getFallbackPostIdeas upgrades in place. -/
def mkFallbackList (ts0 ts2 : Json) : List PostIdea :=
  [ { id := cs "idea_1", concept := .str (cs "BTC dominance shifting again")
    , trend_source := ts0, relevance_score := .num (7 / 10), business_benefit := none }
  , { id := cs "idea_2", concept := .str (cs "New AI model just dropped")
    , trend_source := .str (cs "General: AI model releases")
    , relevance_score := .num (7 / 10), business_benefit := none }
  , { id := cs "idea_3", concept := .str (cs "Altcoin season incoming signals")
    , trend_source := ts2, relevance_score := .num (6 / 10), business_benefit := none }
  , { id := cs "idea_4", concept := .str (cs "AI agents changing everything")
    , trend_source := .str (cs "General: Agentic AI trends")
    , relevance_score := .num (6 / 10), business_benefit := none }
  , { id := cs "idea_5", concept := .str (cs "Whale alert worth watching")
    , trend_source := .str (cs "General: On-chain data")
    , relevance_score := .num (1 / 2), business_benefit := none } ]

/-- News-based upgrade of the first fallback trend_source: interpolates
`headline?.substring(0, 60)` of the first news item when there is one. -/
def newsUpgrade (trendsData : TrendData) : Except Str Json :=
  match trendsData.news with
  | first :: _ => do
    let headline ← getProp first (cs "headline")
    let piece ← optChainSubstring headline 0 60
    pure (.str (cs "News: " ++ jsToString piece ++ cs "..."))
  | [] => pure (.str (cs "General: Crypto market trends"))

/-- Coingecko-based upgrade of the third fallback trend_source. -/
def coingeckoUpgrade (trendsData : TrendData) : Except Str Json :=
  match trendsData.coingecko with
  | top :: _ => do
    let nm ← getProp top (cs "name")
    let sy ← getProp top (cs "symbol")
    pure (.str (cs "CoinGecko: " ++ jsToString nm ++ cs " (" ++ jsToString sy ++ cs ") trending"))
  | [] => pure (.str (cs "General: Crypto cycle analysis"))

/-- Models getFallbackPostIdeas (src/lib/trends.ts): the five fixed ideas,
with the first and third trend_source upgraded in place from the news and
coingecko snapshot data when available. -/
def getFallbackPostIdeas (trendsData : TrendData) : Except Str (List PostIdea) := do
  let ts0 ← newsUpgrade trendsData
  let ts2 ← coingeckoUpgrade trendsData
  pure (mkFallbackList ts0 ts2)

/-- Models parsePostIdeasFromResponse (src/lib/trends.ts): extract the
bracketed segment, JSON-parse it, map with defaults, sort descending by
relevance score and keep at most 8; every failure inside the try block
falls back to the fixed idea set. -/
def parsePostIdeasFromResponse (content : Str) (trendsData : TrendData) :
    Except Str (List PostIdea) :=
  match extractJsonArray content with
  | none => getFallbackPostIdeas trendsData
  | some jsonText =>
    match jsonParse jsonText with
    | some (.arr elems) =>
      match mapIdeas elems.toList with
      | .ok ideas => .ok ((sortIdeas ideas).take 8)
      | .error _ => getFallbackPostIdeas trendsData
    | some _ => getFallbackPostIdeas trendsData
    | none => getFallbackPostIdeas trendsData

/-- Models generatePostIdeas: one model request whose response is parsed
into the idea list (the prompt text does not influence the result shape). -/
def generatePostIdeas (mkResp : Except Str Str) (trendsData : TrendData) :
    Except Str (List PostIdea) := do
  let content ← mkResp
  parsePostIdeasFromResponse content trendsData

/-- Cache entry: opaque data plus an absolute expiry time in
milliseconds (src/lib/cache.ts). Times are exact rationals. -/
structure CacheEntry (α : Type) where
  data : α
  expires : Rat

/-- The private map of the CacheManager, keyed by derived string keys. -/
abbrev CacheMap (α : Type) := List (Str × CacheEntry α)

/-- Lookup in the underlying Map. -/
def cacheLookup {α : Type} : CacheMap α → Str → Option (CacheEntry α)
  | [], _ => none
  | (k', e) :: rest, k => if k = k' then some e else cacheLookup rest k

/-- Models Map.prototype.set: replaces an existing binding in place or
appends a fresh one. -/
def cacheInsert {α : Type} : CacheMap α → Str → CacheEntry α → CacheMap α
  | [], k, e => [(k, e)]
  | (k', e') :: rest, k, e =>
    if k = k' then (k, e) :: rest else (k', e') :: cacheInsert rest k e

/-- Models Map.prototype.delete. -/
def cacheDelete {α : Type} : CacheMap α → Str → CacheMap α
  | [], _ => []
  | (k', e') :: rest, k => if k = k' then rest else (k', e') :: cacheDelete rest k

namespace CacheManager

/-- Models CacheManager.get: an unexpired entry is returned untouched; an
expired entry is lazily evicted and the call reports absence (`none`
models the null return). The current time is an explicit input. -/
def get {α : Type} (cache : CacheMap α) (key : Str) (now : Rat) :
    Option α × CacheMap α :=
  match cacheLookup cache key with
  | some cached =>
    if cached.expires > now then (some cached.data, cache)
    else (none, cacheDelete cache key)
  | none => (none, cache)

/-- Models CacheManager.set: stores the data with expiry
`now + ttlSeconds * 1000`. -/
def set {α : Type} (cache : CacheMap α) (key : Str) (data : α)
    (ttlSeconds : Rat) (now : Rat) : CacheMap α :=
  cacheInsert cache key { data := data, expires := now + ttlSeconds * 1000 }

/-- Property read `params[key]` on the parameter object. -/
def paramGet : List (Str × Json) → Str → Json
  | [], _ => .undefined
  | (k', v) :: rest, k => if k = k' then v else paramGet rest k

/-- Models CacheManager.generateKey: parameter names sorted (the default
lexicographic string sort), each rendered as `name:value`, joined with
pipes behind the prefix `pfx`. The parameter object is its ordered list
of properties. -/
def generateKey (pfx : Str) (params : List (Str × Json)) : Str :=
  let sortedParams : Str :=
    List.intercalate ['|']
      ((List.insertionSort (fun a b : Str => a ≤ b) (params.map Prod.fst)).map
        (fun key => key ++ ':' :: jsToString (paramGet params key)))
  pfx ++ ':' :: sortedParams

end CacheManager

/-- Business/persona context handed to the generation steps. -/
structure BusinessData where
  businessName : Str
  businessType : Str
  ukCity : Str
  industry : Str
  targetAudience : Str
  servicesOffered : Str
  businessPersonality : Option Str
  postType : Option Str

/-- One rendered piece (interface GeneratedContent in the content
module). The idea field carries the concept value verbatim. -/
structure GeneratedContent where
  idea : Json
  platform : Str
  text : Str
  strategy : Str

/-- Boilerplate prefixes stripped from model output. -/
def boilerplatePrefixes : List Str :=
  [cs "Here's the post:", cs "Post content:", cs "Caption:", cs "Tweet:", cs "Content:"]

/-- Case-insensitive prefix strip with a trim after each removal, folded
over the known prefixes in order. -/
def stripBoilerplate (s : Str) : Str :=
  boilerplatePrefixes.foldl
    (fun cl p =>
      if (jsLower p).isPrefixOf (jsLower cl) then
        jsTrim (jsSubstring cl (p.length) (cl.length))
      else cl)
    s

/-- Strips one layer of surrounding double quotes. -/
def stripQuotes (s : Str) : Str :=
  if s.head? = some '"' ∧ s.getLast? = some '"' then
    jsSubstring s 1 ((s.length : Int) - 1)
  else s

/-- The 280-character window (`cleaned.substring(0, 280)`) that the
twitter truncation cuts within. -/
def twSlice (cleaned : Str) : Str := jsSubstring cleaned 0 280

/-- Position of the last paragraph break inside the window. -/
def twLastPara (cleaned : Str) : Int := jsLastIndexOf (twSlice cleaned) (cs "\n\n")

/-- Position of the last sentence boundary inside the window:
`Math.max` of the three sentence-ending searches. -/
def twLastSentence (cleaned : Str) : Int :=
  max (max (jsLastIndexOf (twSlice cleaned) (cs ". "))
      (jsLastIndexOf (twSlice cleaned) (cs "? ")))
    (jsLastIndexOf (twSlice cleaned) (cs "! "))

/-- Position of the last space at or before index 277 of the window
(`slice.lastIndexOf(' ', 277)`). -/
def twLastSpace (cleaned : Str) : Int :=
  jsLastIndexOfFrom (twSlice cleaned) [' '] 277

/-- Twitter truncation pass of cleanupGeneratedContent, entered when the
cleaned text exceeds 280 characters: cut at the last paragraph break after
position 150, else at the last sentence boundary after position 150, else
at the last space at or before position 277 with an ellipsis appended. -/
def truncateTwitter (cleaned : Str) : Str :=
  if twLastPara cleaned > 150 then
    jsTrim (jsSubstring (twSlice cleaned) 0 (twLastPara cleaned))
  else if twLastSentence cleaned > 150 then
    jsTrim (jsSubstring (twSlice cleaned) 0 (twLastSentence cleaned + 1))
  else
    jsTrim (jsSubstring (twSlice cleaned) 0
        (if twLastSpace cleaned > 0 then twLastSpace cleaned else 277)) ++
      cs "..."

/-- Instagram pass of cleanupGeneratedContent: pushes the first hashtag
block onto its own paragraph when it is not already separated. -/
def fixInstagramHashtags (cleaned : Str) : Str :=
  if !(jsIncludes cleaned (cs "\n\n#")) && jsIncludes cleaned ['#'] then
    let hashtagIndex := jsIndexOf cleaned ['#']
    let beforeHashtags := jsTrim (jsSubstring cleaned 0 hashtagIndex)
    let hashtags := jsSubstring cleaned hashtagIndex (cleaned.length)
    beforeHashtags ++ cs "\n\n" ++ hashtags
  else cleaned

/-- Models cleanupGeneratedContent (content module): trim, strip
boilerplate prefixes, strip surrounding quotes, then the platform-specific
repair passes. -/
def cleanupGeneratedContent (content : Str) (platform : Str) : Str :=
  let cleaned := jsTrim content
  let cleaned := stripBoilerplate cleaned
  let cleaned := stripQuotes cleaned
  if platform = cs "twitter" ∧ cleaned.length > 280 then truncateTwitter cleaned
  else if platform = cs "instagram" then fixInstagramHashtags cleaned
  else cleaned

/-- Models getFallbackContent: a deterministic string built from the
concept and platform, used when rendering a pair fails. -/
def getFallbackContent (idea : PostIdea) (platform : Str) : Str :=
  if platform = cs "instagram" then
    jsToString idea.concept ++
      cs "\n\nThis is one to watch closely. Drop your thoughts in the comments 👇\n\n#Crypto #Bitcoin #AITech #Web3 #DeFi"
  else if platform = cs "facebook" then
    jsToString idea.concept ++
      cs " — what do you think about this? Share your take in the comments, would love to hear from the community."
  else
    jsToString idea.concept ++ cs " — this is worth watching. What's your take? 👇 #Crypto #AI"

/-- Strategy tag recorded on each piece: `businessData.postType ||
'value_first'`. -/
def strategyOf (bd : BusinessData) : Str :=
  match bd.postType with
  | some s => if s = [] then cs "value_first" else s
  | none => cs "value_first"

/-- One loop iteration of generatePlatformContent for the pair at indices
(i, j): a successful model call and post log yield the cleaned text, any
thrown error in the pair is caught and replaced by the fallback text. The
call and log outcomes are explicit oracles indexed by the pair. -/
def pairEntry (bd : BusinessData) (call : Nat → Nat → Except Str Str)
    (logOk : Nat → Nat → Bool) (i : Nat) (idea : PostIdea) (j : Nat)
    (platform : Str) : GeneratedContent :=
  match call i j with
  | .ok content =>
    if logOk i j then
      { idea := idea.concept, platform := platform
      , text := cleanupGeneratedContent content platform, strategy := strategyOf bd }
    else
      { idea := idea.concept, platform := platform
      , text := getFallbackContent idea platform, strategy := strategyOf bd }
  | .error _ =>
    { idea := idea.concept, platform := platform
    , text := getFallbackContent idea platform, strategy := strategyOf bd }

/-- Inner platform loop of generatePlatformContent. -/
def genRow (bd : BusinessData) (call : Nat → Nat → Except Str Str)
    (logOk : Nat → Nat → Bool) (i : Nat) (idea : PostIdea) :
    Nat → List Str → List GeneratedContent
  | _, [] => []
  | j, platform :: rest =>
    pairEntry bd call logOk i idea j platform :: genRow bd call logOk i idea (j + 1) rest

/-- Outer idea loop of generatePlatformContent. -/
def genRows (bd : BusinessData) (call : Nat → Nat → Except Str Str)
    (logOk : Nat → Nat → Bool) : Nat → List PostIdea → List Str → List GeneratedContent
  | _, [], _ => []
  | i, idea :: rest, platforms =>
    genRow bd call logOk i idea 0 platforms ++ genRows bd call logOk (i + 1) rest platforms

/-- Models generatePlatformContent (content module): the sequential nested
loops over ideas (outer) and platforms (inner), never dropping a pair. -/
def generatePlatformContent (bd : BusinessData) (selectedIdeas : List PostIdea)
    (platforms : List Str) (call : Nat → Nat → Except Str Str)
    (logOk : Nat → Nat → Bool) : List GeneratedContent :=
  genRows bd call logOk 0 selectedIdeas platforms

/-- Rendering contract as the spec states it: one entry per
(idea, platform) pair, in idea-major, platform-minor order. -/
def contentSpec (bd : BusinessData) (selectedIdeas : List PostIdea)
    (platforms : List Str) (call : Nat → Nat → Except Str Str)
    (logOk : Nat → Nat → Bool) : List GeneratedContent :=
  selectedIdeas.enum.flatMap fun p =>
    platforms.enum.map fun q => pairEntry bd call logOk p.1 p.2 q.1 q.2

/-- Business section of the configuration. -/
structure BusinessConfig where
  name : Str
  type : Str
  city : Str
  industry : Str
  targetAudience : Str
  servicesOffered : Str
  personality : Option Str
  postType : Option Str

/-- Output section of the configuration. -/
structure OutputConfig where
  platforms : List Str
  keywords : List Str
  keywordsPerRun : Nat
  maxKeywords : Nat
  maxPostIdeas : Nat
  maxContentPerIdea : Nat
  logToFile : Bool

/-- Static configuration consumed by the pipeline. -/
structure Config where
  business : BusinessConfig
  sources : SourcesConfig
  output : OutputConfig

/-- Caller options of runPipeline. -/
structure RunOptions where
  platforms : Option (List Str)
  strategy : Option Str
  keywords : Option (List Str)
  skipContent : Bool
  quiet : Bool

/-- Persisted current-post artifact (interface CurrentPost in
src/lib/image.ts). -/
structure CurrentPost where
  platform : Str
  text : Str
  idea : Str
  timestamp : Str
  imagePath : Option Str

/-- Result metadata (always present on success and on error). -/
structure PipelineMeta where
  timestamp : Str
  processingTimeMs : Nat
  sourcesUsed : List Str
  keywordCount : Nat
  ideasGenerated : Nat
  contentPieces : Nat

/-- Business echo embedded in the result. -/
structure BusinessEcho where
  name : Str
  type : Str
  city : Str
  industry : Str

/-- Terminal result object of one pipeline run (interface PipelineResult). -/
structure PipelineResult where
  status : Str
  business : BusinessEcho
  keywords : List Str
  trends : TrendData
  postIdeas : List PostIdea
  content : List GeneratedContent
  currentPost : Option CurrentPost
  meta : PipelineMeta
  error : Option Str

/-- Outcomes of every effectful call one pipeline run can make, provided
as oracles: the pre-try output-directory clear/recreate, the random pool
sample, the keyword model call, the five adapters, the idea model call,
the per-pair content calls and post-log writes, the persist step, the log
flush, and the observed clock values. -/
structure PipelineEnv where
  setup : Except Str Unit
  poolPick : List Str
  aiKeywords : Except Str (List Str)
  adapters : AdapterOutcomes
  ideasResp : Except Str Str
  contentCall : Nat → Nat → Except Str Str
  contentLogOk : Nat → Nat → Bool
  persist : Except Str CurrentPost
  saveLog : Except Str Str
  timestamp : Str
  elapsedMs : Nat

/-- Models `x || y` on optional strings (empty string is falsy). -/
def orStr (x y : Option Str) : Option Str :=
  match x with
  | some s => if s = [] then y else some s
  | none => y

/-- Business data assembled by runPipeline from configuration and caller
options (the strategy option overrides the configured post type). -/
def mkBusinessData (cfg : Config) (options : RunOptions) : BusinessData :=
  { businessName := cfg.business.name
  , businessType := cfg.business.type
  , ukCity := cfg.business.city
  , industry := cfg.business.industry
  , targetAudience := cfg.business.targetAudience
  , servicesOffered := cfg.business.servicesOffered
  , businessPersonality := cfg.business.personality
  , postType := orStr options.strategy cfg.business.postType }

/-- Source-usage list pushed by runPipeline before the try block: one name
per source enabled in the configuration, in push order. -/
def enabledSources (cfg : SourcesConfig) : List Str :=
  (if cfg.googleTrends then [cs "google"] else []) ++
    (if cfg.xcom then [cs "xcom"] else []) ++
      (if cfg.coingecko then [cs "coingecko"] else []) ++
        (if cfg.redditEnabled then [cs "reddit"] else []) ++
          (if cfg.newsEnabled then [cs "news"] else [])

/-- Pool-or-model branch of keyword selection: a nonempty configured pool
short-circuits the keyword model call. -/
def poolOrAi (cfg : Config) (env : PipelineEnv) : Except Str (List Str) :=
  if ((cfg.output.keywords.filter (fun k => !(jsTrim k).isEmpty)).length > 0) then
    .ok env.poolPick
  else env.aiKeywords

/-- Keyword selection with its strict priority: caller keywords, then the
configured pool, then the keyword model call. -/
def pickKeywords (cfg : Config) (options : RunOptions) (env : PipelineEnv) :
    Except Str (List Str) :=
  match options.keywords with
  | some ks => if ks.length > 0 then .ok ks else poolOrAi cfg env
  | none => poolOrAi cfg env

/-- Platform list for the run: caller override or configured default. -/
def resolvePlatforms (cfg : Config) (options : RunOptions) : List Str :=
  match options.platforms with
  | some ps => ps
  | none => cfg.output.platforms

/-- Step 4 of the run: content generation, skipped on request; the
renderer itself never throws. -/
def contentStep (cfg : Config) (options : RunOptions) (env : PipelineEnv)
    (postIdeas : List PostIdea) : Except Str (List GeneratedContent) :=
  if options.skipContent then pure []
  else
    pure
      (generatePlatformContent (mkBusinessData cfg options)
        (postIdeas.take cfg.output.maxContentPerIdea)
        (resolvePlatforms cfg options) env.contentCall env.contentLogOk)

/-- Step 5 of the run: the current post is persisted only when some
content was generated; a persist failure throws. -/
def persistStep (env : PipelineEnv) (content : List GeneratedContent) :
    Except Str (Option CurrentPost) :=
  match content with
  | [] => pure none
  | _ :: _ =>
    match env.persist with
    | .ok cp => pure (some cp)
    | .error e => .error e

/-- Final log flush, gated by configuration; a write failure throws. -/
def saveLogStep (cfg : Config) (env : PipelineEnv) : Except Str Unit :=
  if cfg.output.logToFile then
    match env.saveLog with
    | .ok _ => pure ()
    | .error e => .error e
  else pure ()

/-- Success record assembled at the end of the try block. -/
def successResult (cfg : Config) (options : RunOptions) (env : PipelineEnv)
    (keywords : List Str) (postIdeas : List PostIdea)
    (content : List GeneratedContent) (currentPost : Option CurrentPost) :
    PipelineResult :=
  let businessData := mkBusinessData cfg options
  { status := cs "success"
  , business :=
    { name := businessData.businessName, type := businessData.businessType
    , city := businessData.ukCity, industry := businessData.industry }
  , keywords := keywords.take cfg.output.maxKeywords
  , trends := analyzeTrends cfg.sources env.adapters
  , postIdeas := postIdeas.take cfg.output.maxPostIdeas
  , content := content
  , currentPost := currentPost
  , meta :=
    { timestamp := env.timestamp, processingTimeMs := env.elapsedMs
    , sourcesUsed := enabledSources cfg.sources, keywordCount := keywords.length
    , ideasGenerated := postIdeas.length, contentPieces := content.length }
  , error := none }

/-- Body of the try block of runPipeline: keyword selection, trend
aggregation, idea generation, content rendering (skippable), persistence
(only with nonempty content), optional log flush, then the success
result. An error is the first exception thrown by any step. -/
def runPipelineBody (cfg : Config) (options : RunOptions) (env : PipelineEnv) :
    Except Str PipelineResult := do
  let keywords ← pickKeywords cfg options env
  let postIdeas ← generatePostIdeas env.ideasResp
    (analyzeTrends cfg.sources env.adapters)
  let content ← contentStep cfg options env postIdeas
  let currentPost ← persistStep env content
  let _ ← saveLogStep cfg env
  pure (successResult cfg options env keywords postIdeas content currentPost)

/-- Structured error result returned by the catch block of runPipeline. -/
def errorResult (cfg : Config) (options : RunOptions) (env : PipelineEnv)
    (msg : Str) : PipelineResult :=
  let businessData := mkBusinessData cfg options
  { status := cs "error"
  , business :=
    { name := businessData.businessName, type := businessData.businessType
    , city := businessData.ukCity, industry := businessData.industry }
  , keywords := []
  , trends := { google := [], xcom := [], coingecko := [], reddit := [], news := [] }
  , postIdeas := []
  , content := []
  , currentPost := none
  , meta :=
    { timestamp := env.timestamp, processingTimeMs := env.elapsedMs
    , sourcesUsed := enabledSources cfg.sources, keywordCount := 0
    , ideasGenerated := 0, contentPieces := 0 }
  , error := some msg }

/-- Models runPipeline: the output-directory clear/recreate runs before
the try block, so its failure rejects the returned promise (outer
`.error`); every exception inside the try block is caught and converted
to the structured error result (still a normal `.ok` return). -/
def runPipeline (cfg : Config) (options : RunOptions) (env : PipelineEnv) :
    Except Str PipelineResult :=
  match env.setup with
  | .error e => .error e
  | .ok _ =>
    match runPipelineBody cfg options env with
    | .ok r => .ok r
    | .error msg => .ok (errorResult cfg options env msg)

/-- Concrete business section used by the closed theorems. -/
def sampleBusiness : BusinessConfig :=
  { name := cs "CryptoVoice", type := cs "influencer", city := cs "London"
  , industry := cs "crypto", targetAudience := cs "traders"
  , servicesOffered := cs "alpha", personality := none
  , postType := some (cs "value_first") }

/-- Configuration with every source enabled and file logging off. -/
def cfgAllOn : Config :=
  { business := sampleBusiness
  , sources :=
    { googleTrends := true, xcom := true, coingecko := true
    , redditEnabled := true, newsEnabled := true }
  , output :=
    { platforms := [cs "twitter"], keywords := [], keywordsPerRun := 3
    , maxKeywords := 6, maxPostIdeas := 3, maxContentPerIdea := 1
    , logToFile := false } }

/-- Caller options: explicit keywords, content generation skipped. -/
def optsSimple : RunOptions :=
  { platforms := none, strategy := none, keywords := some [cs "bitcoin"]
  , skipContent := true, quiet := true }

/-- Adapter outcomes in which all five source calls reject. -/
def allFailAdapters : AdapterOutcomes :=
  { google := .error (cs "network error"), xcom := .error (cs "network error")
  , coingecko := .error (cs "network error"), reddit := .error (cs "network error")
  , news := .error (cs "network error") }

/-- Persisted artifact used by the run fixtures. -/
def samplePost : CurrentPost :=
  { platform := cs "twitter", text := [], idea := [], timestamp := []
  , imagePath := none }

/-- Environment for a run in which every adapter fails but every other
effect succeeds. -/
def envAllFail : PipelineEnv :=
  { setup := .ok (), poolPick := [], aiKeywords := .ok []
  , adapters := allFailAdapters, ideasResp := .ok (cs "[]")
  , contentCall := fun _ _ => .error (cs "no call")
  , contentLogOk := fun _ _ => true
  , persist := .ok samplePost
  , saveLog := .ok [], timestamp := cs "2026-01-01T00:00:00.000Z"
  , elapsedMs := 1000 }

/-- Environment whose pre-try directory clear/recreate fails. -/
def envSetupFail : PipelineEnv :=
  { envAllFail with setup := .error (cs "EACCES: permission denied, rmdir current_post") }

/-- The concrete result of the all-adapters-fail run. -/
def errorFreeRun : PipelineResult :=
  (runPipeline cfgAllOn optsSimple envAllFail).toOption.getD
    (errorResult cfgAllOn optsSimple envAllFail [])

/-- Model response whose prose brackets swallow the embedded array: the
regex segment runs from the `[1]` tag to the end of the array. -/
def proseBracketResponse : Str :=
  cs "Ideas [1] and [2]: [\x7b\"concept\": \"Alpha drop\"\x7d] end"

/-- The valid JSON array embedded in `proseBracketResponse`. -/
def embeddedArray : Str := cs "[\x7b\"concept\": \"Alpha drop\"\x7d]"

/-- The idea the claim would expect for `proseBracketResponse`: the
array's single element with defaults filled. -/
def ideaAlphaClaim : PostIdea :=
  { id := cs "idea_1", concept := .str (cs "Alpha drop")
  , trend_source := .str (cs "General trend analysis")
  , relevance_score := .num (1 / 2)
  , business_benefit := some (.str (cs "Provides engagement opportunity")) }

/-- The fixed fallback idea set as produced for an empty snapshot. -/
def baseFallbackIdeas : List PostIdea :=
  [ { id := cs "idea_1", concept := .str (cs "BTC dominance shifting again")
    , trend_source := .str (cs "General: Crypto market trends")
    , relevance_score := .num (7 / 10), business_benefit := none }
  , { id := cs "idea_2", concept := .str (cs "New AI model just dropped")
    , trend_source := .str (cs "General: AI model releases")
    , relevance_score := .num (7 / 10), business_benefit := none }
  , { id := cs "idea_3", concept := .str (cs "Altcoin season incoming signals")
    , trend_source := .str (cs "General: Crypto cycle analysis")
    , relevance_score := .num (6 / 10), business_benefit := none }
  , { id := cs "idea_4", concept := .str (cs "AI agents changing everything")
    , trend_source := .str (cs "General: Agentic AI trends")
    , relevance_score := .num (6 / 10), business_benefit := none }
  , { id := cs "idea_5", concept := .str (cs "Whale alert worth watching")
    , trend_source := .str (cs "General: On-chain data")
    , relevance_score := .num (1 / 2), business_benefit := none } ]

/-- Model response carrying one valid array embedded in bracket-free
prose. -/
def cleanProseResponse : Str :=
  cs "Sure thing: [\x7b\"concept\": \"Solana szn\"\x7d] enjoy"

/-- The mapped idea list for `cleanProseResponse`. -/
def solanaIdeas : List PostIdea :=
  [ { id := cs "idea_1", concept := .str (cs "Solana szn")
    , trend_source := .str (cs "General trend analysis")
    , relevance_score := .num (1 / 2)
    , business_benefit := some (.str (cs "Provides engagement opportunity")) } ]

/-- The array segment extracted from `cleanProseResponse`. -/
def solanaArray : Str := cs "[\x7b\"concept\": \"Solana szn\"\x7d]"

/-- The parsed form of `solanaArray`. -/
def solanaJson : JsonList :=
  .cons (.obj (.fcons (cs "concept") (.str (cs "Solana szn")) .fnil)) .nil

/-- Environment whose idea-generation model call rejects (directory setup
and everything before it succeed). -/
def envIdeasFail : PipelineEnv :=
  { envAllFail with ideasResp := .error (cs "Claude API request failed") }

/-- Idea whose concept is a 300-character word. -/
def ideaLongConcept : PostIdea :=
  { id := cs "idea_1", concept := .str (List.replicate 300 'a')
  , trend_source := .str (cs "General trend analysis")
  , relevance_score := .num 1, business_benefit := none }

/-- Business data used by the renderer fixtures. -/
def sampleBusinessData : BusinessData := mkBusinessData cfgAllOn optsSimple

/-- A 360-character single-paragraph text with no sentence punctuation,
whose only natural boundaries are spaces. -/
def longTweet : Str := (List.replicate 60 (cs "alpha ")).flatten

/-- Whether an adapter call rejected. -/
def isThrown {α : Type} : Except Str α → Prop
  | .error _ => True
  | .ok _ => False

/-- Whether all five adapter calls rejected. -/
def adaptersAllFailed (oc : AdapterOutcomes) : Prop :=
  isThrown oc.google ∧ isThrown oc.xcom ∧ isThrown oc.coingecko ∧
    isThrown oc.reddit ∧ isThrown oc.news

/-- Numeric effective relevance score (used to phrase descending order). -/
def scoreValD (p : PostIdea) : Rat := (effScore p).getD 0

/-! ## Theorems -/

/-- Settling and extracting one adapter outcome is the
ok-or-empty projection. -/
theorem settledOrEmpty_settle {α : Type} (e : Except Str (List α)) :
    settledOrEmpty (settle e) = match e with | .ok v => v | .error _ => [] := by
  cases e <;> rfl

/-- C1: analyzeTrends is a total function on adapter outcomes (it never
throws), and every source field of the returned snapshot equals the
adapter's fulfilled value exactly when that adapter settled successfully
and was enabled, and the empty list when the adapter failed or was
disabled; the ungated reddit and news fields depend only on their own
outcome. -/
theorem analyzeTrends_partial_failure (cfg : SourcesConfig) (oc : AdapterOutcomes) :
    (analyzeTrends cfg oc).google =
        (match cfg.googleTrends, oc.google with
          | true, .ok v => v
          | true, .error _ => []
          | false, _ => []) ∧
      (analyzeTrends cfg oc).xcom =
        (match cfg.xcom, oc.xcom with
          | true, .ok v => v
          | true, .error _ => []
          | false, _ => []) ∧
      (analyzeTrends cfg oc).coingecko =
        (match cfg.coingecko, oc.coingecko with
          | true, .ok v => v
          | true, .error _ => []
          | false, _ => []) ∧
      (analyzeTrends cfg oc).reddit =
        (match oc.reddit with
          | .ok v => v
          | .error _ => []) ∧
      (analyzeTrends cfg oc).news =
        (match oc.news with
          | .ok v => v
          | .error _ => []) := by
  refine ⟨?_, ?_, ?_, ?_, ?_⟩
  · cases hg : cfg.googleTrends <;> cases ho : oc.google <;>
      simp [analyzeTrends, hg, ho, settle, settledOrEmpty]
  · cases hg : cfg.xcom <;> cases ho : oc.xcom <;>
      simp [analyzeTrends, hg, ho, settle, settledOrEmpty]
  · cases hg : cfg.coingecko <;> cases ho : oc.coingecko <;>
      simp [analyzeTrends, hg, ho, settle, settledOrEmpty]
  · cases ho : oc.reddit <;> simp [analyzeTrends, ho, settle, settledOrEmpty]
  · cases ho : oc.news <;> simp [analyzeTrends, ho, settle, settledOrEmpty]

/-- Looking up the key just inserted finds the new entry. -/
theorem cacheLookup_cacheInsert_self {α : Type} (m : CacheMap α) (k : Str)
    (e : CacheEntry α) : cacheLookup (cacheInsert m k e) k = some e := by
  induction m with
  | nil => simp [cacheInsert, cacheLookup]
  | cons hd t ih =>
    obtain ⟨k', e'⟩ := hd
    by_cases h : k = k' <;> simp [cacheInsert, cacheLookup, h, ih]

/-- A key that is not bound in the map looks up to nothing. -/
theorem cacheLookup_eq_none_of_not_mem {α : Type} (m : CacheMap α) (k : Str)
    (h : k ∉ m.map Prod.fst) : cacheLookup m k = none := by
  induction m with
  | nil => rfl
  | cons hd t ih =>
    obtain ⟨k', e'⟩ := hd
    simp only [List.map_cons, List.mem_cons] at h
    push_neg at h
    simp [cacheLookup, h.1, ih h.2]

/-- With unique keys, deleting the key just set removes its binding
entirely. -/
theorem cacheLookup_delete_insert {α : Type} (m : CacheMap α) (k : Str)
    (e : CacheEntry α) (h : (m.map Prod.fst).Nodup) :
    cacheLookup (cacheDelete (cacheInsert m k e) k) k = none := by
  induction m with
  | nil => simp [cacheInsert, cacheDelete, cacheLookup]
  | cons hd t ih =>
    obtain ⟨k', e'⟩ := hd
    simp only [List.map_cons, List.nodup_cons] at h
    by_cases hk : k = k'
    · subst hk
      simp only [cacheInsert, if_pos rfl, cacheDelete, if_pos rfl]
      exact cacheLookup_eq_none_of_not_mem t k h.1
    · simp [cacheInsert, hk, cacheDelete, cacheLookup, ih h.2]

/-- C8 (amended): with a strictly positive ttl, a set followed by a get at
the same instant returns the stored value, and once `ttl` seconds have
elapsed the get both reports absence and lazily evicts the entry from the
underlying map (assuming the map's keys are unique, as the Map API
guarantees). With `ttl = 0` the immediate get already misses, which is
what the counterexample shows. -/
theorem cache_set_get_expiry {α : Type} (m : CacheMap α) (k : Str) (v : α)
    (ttl now now2 : Rat) (hwf : (m.map Prod.fst).Nodup) (httl : 0 < ttl) :
    (CacheManager.get (CacheManager.set m k v ttl now) k now).1 = some v ∧
      (now + ttl * 1000 ≤ now2 →
        (CacheManager.get (CacheManager.set m k v ttl now) k now2).1 = none ∧
          cacheLookup (CacheManager.get (CacheManager.set m k v ttl now) k now2).2 k =
            none) := by
  have hl := cacheLookup_cacheInsert_self m k
    (⟨v, now + ttl * 1000⟩ : CacheEntry α)
  have hpos : now < now + ttl * 1000 := by nlinarith
  constructor
  · simp [CacheManager.get, CacheManager.set, hl, hpos]
  · intro h2
    have hexp : ¬ (now + ttl * 1000 > now2) := not_lt.mpr h2
    constructor
    · simp [CacheManager.get, CacheManager.set, hl, hexp]
    · simp [CacheManager.get, CacheManager.set, hl, hexp,
        cacheLookup_delete_insert m k (⟨v, now + ttl * 1000⟩ : CacheEntry α) hwf]

/-- Witness for C8: key "trends", value 7, ttl 1 second, set at time 0,
read back at time 0 and again at time 1000 ms. -/
theorem cache_set_get_expiry_witness :
    (CacheManager.get (CacheManager.set ([] : CacheMap Nat) (cs "trends") 7 1 0)
        (cs "trends") 0).1 = some 7 ∧
      ((CacheManager.get (CacheManager.set ([] : CacheMap Nat) (cs "trends") 7 1 0)
            (cs "trends") 1000).1 = none ∧
        cacheLookup
            (CacheManager.get (CacheManager.set ([] : CacheMap Nat) (cs "trends") 7 1 0)
                (cs "trends") 1000).2 (cs "trends") = none) :=
  ⟨(cache_set_get_expiry ([] : CacheMap Nat) (cs "trends") 7 1 0 0
      (by simp) (by simp)).1,
    (cache_set_get_expiry ([] : CacheMap Nat) (cs "trends") 7 1 0 1000
      (by simp) (by simp)).2 (by simp)⟩

/-- Counterexample for C8 as stated: with ttl 0 (a legal value of "every
ttl"), the get immediately after the set already returns absent and
evicts, instead of returning the stored value. -/
theorem cache_zero_ttl_misses :
    (CacheManager.get (CacheManager.set ([] : CacheMap Nat) (cs "k") 7 0 5)
        (cs "k") 5).1 ≠ some 7 ∧
      (CacheManager.get (CacheManager.set ([] : CacheMap Nat) (cs "k") 7 0 5)
          (cs "k") 5).1 = none := by
  have hnone :
      (CacheManager.get (CacheManager.set ([] : CacheMap Nat) (cs "k") 7 0 5)
          (cs "k") 5).1 = none := by
    norm_num [CacheManager.get, CacheManager.set, cacheLookup, cacheInsert]
  exact ⟨by simp [hnone], hnone⟩

/-- Property reads agree across a permutation of a duplicate-free
parameter object. -/
theorem paramGet_eq_of_perm (p1 p2 : List (Str × Json)) (h : p1.Perm p2)
    (hnd : (p1.map Prod.fst).Nodup) (k : Str) :
    CacheManager.paramGet p1 k = CacheManager.paramGet p2 k := by
  induction h with
  | nil => rfl
  | cons x h ih =>
    obtain ⟨kx, vx⟩ := x
    simp only [List.map_cons, List.nodup_cons] at hnd
    by_cases hk : k = kx
    · simp [CacheManager.paramGet, hk]
    · simp [CacheManager.paramGet, hk, ih hnd.2]
  | swap x y l =>
    obtain ⟨kx, vx⟩ := x
    obtain ⟨ky, vy⟩ := y
    simp only [List.map_cons, List.nodup_cons, List.mem_cons] at hnd
    have hxy : ky ≠ kx := fun hh => hnd.1 (Or.inl hh)
    by_cases hk : k = ky
    · subst hk
      simp [CacheManager.paramGet, hxy]
    · by_cases hk2 : k = kx
      · simp [CacheManager.paramGet, hk, hk2, hxy.symm]
      · simp [CacheManager.paramGet, hk, hk2]
  | trans h1 h2 ih1 ih2 =>
    exact (ih1 hnd).trans (ih2 ((h1.map Prod.fst).nodup hnd))

/-- Two key lists that are permutations of each other sort identically. -/
theorem insertionSort_eq_of_perm (l1 l2 : List Str) (h : l1.Perm l2) :
    List.insertionSort (fun a b : Str => a ≤ b) l1 =
      List.insertionSort (fun a b : Str => a ≤ b) l2 :=
  List.eq_of_perm_of_sorted
    ((List.perm_insertionSort _ l1).trans
      (h.trans (List.perm_insertionSort _ l2).symm))
    (List.sorted_insertionSort _ l1) (List.sorted_insertionSort _ l2)

/-- C9: generateKey is invariant under permutation of the parameter
object's property insertion order: any two duplicate-free parameter lists
carrying the same (name, value) pairs produce the identical key (two
calls with literally identical mappings are the reflexive case). -/
theorem generateKey_order_invariant (pfx : Str) (p1 p2 : List (Str × Json))
    (hperm : p1.Perm p2) (hnd : (p1.map Prod.fst).Nodup) :
    CacheManager.generateKey pfx p1 = CacheManager.generateKey pfx p2 := by
  unfold CacheManager.generateKey
  rw [insertionSort_eq_of_perm _ _ (hperm.map Prod.fst)]
  have hmap :
      (List.insertionSort (fun a b : Str => a ≤ b) (p2.map Prod.fst)).map
          (fun key => key ++ ':' :: jsToString (CacheManager.paramGet p1 key)) =
        (List.insertionSort (fun a b : Str => a ≤ b) (p2.map Prod.fst)).map
          (fun key => key ++ ':' :: jsToString (CacheManager.paramGet p2 key)) := by
    refine List.map_congr_left fun key _ => ?_
    rw [paramGet_eq_of_perm p1 p2 hperm hnd key]
  rw [hmap]

/-- Witness for C9: the mappings (a ↦ 1, b ↦ 2) and (b ↦ 2, a ↦ 1). -/
theorem generateKey_order_invariant_witness :
    CacheManager.generateKey (cs "gk")
        [(cs "b", Json.num 2), (cs "a", Json.num 1)] =
      CacheManager.generateKey (cs "gk")
        [(cs "a", Json.num 1), (cs "b", Json.num 2)] :=
  generateKey_order_invariant (cs "gk")
    [(cs "b", Json.num 2), (cs "a", Json.num 1)]
    [(cs "a", Json.num 1), (cs "b", Json.num 2)]
    (List.Perm.swap (cs "a", Json.num 1) (cs "b", Json.num 2) [])
    (by decide)

/-- C10: key derivation is not injective in the parameters: the distinct
mappings (a ↦ "1|b:2") and (a ↦ "1", b ↦ "2") collide on the very same
key, because names and values are joined with unescaped `:` and `|`. -/
theorem generateKey_collision :
    CacheManager.generateKey (cs "p") [(cs "a", Json.str (cs "1|b:2"))] =
        CacheManager.generateKey (cs "p")
          [(cs "a", Json.str (cs "1")), (cs "b", Json.str (cs "2"))] ∧
      [(cs "a", Json.str (cs "1|b:2"))] ≠
        [(cs "a", Json.str (cs "1")), (cs "b", Json.str (cs "2"))] := by
  refine ⟨rfl, fun h => ?_⟩
  have := congrArg List.length h
  simp at this

/-- Dropping a matched run never lengthens a list. -/
theorem length_dropWhile_le' (p : Char → Bool) (l : Str) :
    (l.dropWhile p).length ≤ l.length := by
  induction l with
  | nil => simp
  | cons a t ih =>
    by_cases h : p a
    · simp only [List.dropWhile, h, List.length_cons]
      exact ih.trans (Nat.le_succ t.length)
    · simp [List.dropWhile, h]

/-- Trimming never lengthens a string. -/
theorem jsTrim_length_le (s : Str) : (jsTrim s).length ≤ s.length := by
  unfold jsTrim
  calc ((s.dropWhile isJsSpace).reverse.dropWhile isJsSpace).reverse.length
      = ((s.dropWhile isJsSpace).reverse.dropWhile isJsSpace).length := by
        rw [List.length_reverse]
    _ ≤ (s.dropWhile isJsSpace).reverse.length := length_dropWhile_le' _ _
    _ = (s.dropWhile isJsSpace).length := by rw [List.length_reverse]
    _ ≤ s.length := length_dropWhile_le' _ _

/-- A substring is never longer than the whole string. -/
theorem jsSubstring_length_le (s : Str) (a b : Int) :
    (jsSubstring s a b).length ≤ s.length := by
  unfold jsSubstring
  simp only [List.length_drop, List.length_take]
  omega

/-- A substring starting at 0 is no longer than its end index. -/
theorem jsSubstring_zero_length_le (s : Str) (b : Int) :
    (jsSubstring s 0 b).length ≤ b.toNat := by
  unfold jsSubstring
  simp only [List.length_drop, List.length_take]
  omega

/-- The backwards search never reports an index beyond its stop bound. -/
theorem jsLastIndexOfFrom_le (s pat : Str) (stop : Nat) :
    jsLastIndexOfFrom s pat stop ≤ (stop : Int) := by
  unfold jsLastIndexOfFrom
  cases hg : ((List.range (stop + 1)).filter (occursAt pat s)).getLast? with
  | none =>
    simp only [hg]
    omega
  | some i =>
    have hm : i ∈ (List.range (stop + 1)).filter (occursAt pat s) :=
      List.mem_of_mem_getLast? hg
    have hr : i < stop + 1 := List.mem_range.mp (List.mem_filter.mp hm).1
    simp only [hg]
    omega

/-- The twitter truncation pass always lands within the 280 budget. -/
theorem truncateTwitter_length_le (s : Str) : (truncateTwitter s).length ≤ 280 := by
  have hs : (twSlice s).length ≤ 280 := jsSubstring_zero_length_le s 280
  unfold truncateTwitter
  split
  · exact le_trans (jsTrim_length_le _) (le_trans (jsSubstring_length_le _ _ _) hs)
  · split
    · exact le_trans (jsTrim_length_le _) (le_trans (jsSubstring_length_le _ _ _) hs)
    · rw [List.length_append]
      have hsp := jsLastIndexOfFrom_le (twSlice s) [' '] 277
      have h1 :
          (jsTrim (jsSubstring (twSlice s) 0
              (if twLastSpace s > 0 then twLastSpace s else 277))).length ≤ 277 := by
        refine le_trans (jsTrim_length_le _)
          (le_trans (jsSubstring_zero_length_le _ _) ?_)
        unfold twLastSpace
        split <;> omega
      have h2 : (cs "...").length = 3 := rfl
      omega

/-- The twitter cleanup output fits the strict 280-character ceiling. -/
theorem cleanup_twitter_length_le (content : Str) :
    (cleanupGeneratedContent content (cs "twitter")).length ≤ 280 := by
  simp only [cleanupGeneratedContent]
  split
  · exact truncateTwitter_length_le _
  · split
    · rename_i h
      exact absurd h (by decide)
    · rename_i h _
      simp only [not_and, gt_iff_lt, Nat.not_lt] at h
      first
      | exact h rfl
      | exact h trivial

/-- Counterexample for C5 as stated: when the model call for a pair
throws, the renderer emits the deterministic fallback text, which embeds
the concept verbatim; a 300-character concept makes that text exceed the
280-character ceiling. -/
theorem fallback_exceeds_twitter_limit :
    (generatePlatformContent sampleBusinessData [ideaLongConcept] [cs "twitter"]
          (fun _ _ => .error (cs "model call failed")) (fun _ _ => true)).map
        (fun e => e.text) =
      [getFallbackContent ideaLongConcept (cs "twitter")] ∧
      280 < (getFallbackContent ideaLongConcept (cs "twitter")).length := by
  exact ⟨rfl, by decide⟩

/-- The inner platform loop renders one entry per platform, in order. -/
theorem genRow_eq_map (bd : BusinessData) (call : Nat → Nat → Except Str Str)
    (logOk : Nat → Nat → Bool) (i : Nat) (idea : PostIdea) (ps : List Str) :
    ∀ j, genRow bd call logOk i idea j ps =
      (ps.enumFrom j).map fun q => pairEntry bd call logOk i idea q.1 q.2 := by
  induction ps with
  | nil => intro j; rfl
  | cons p t ih => intro j; simp [genRow, List.enumFrom, ih (j + 1)]

/-- The outer idea loop renders the rows of all ideas, in order. -/
theorem genRows_eq_flatMap (bd : BusinessData) (call : Nat → Nat → Except Str Str)
    (logOk : Nat → Nat → Bool) (platforms : List Str) (l : List PostIdea) :
    ∀ i, genRows bd call logOk i l platforms =
      (l.enumFrom i).flatMap fun p =>
        platforms.enum.map fun q => pairEntry bd call logOk p.1 p.2 q.1 q.2 := by
  induction l with
  | nil => intro i; rfl
  | cons a t ih =>
    intro i
    simp [genRows, List.enumFrom, ih (i + 1), genRow_eq_map, List.enum]

/-- C6: generatePlatformContent returns exactly the idea-major,
platform-minor sequence of per-pair entries (the spec-shaped contentSpec),
hence one entry per (idea, platform) pair and none dropped; its length is
the full product, and a pair whose model call throws still yields its
entry, carrying the deterministic fallback text built from the concept
and the platform. -/
theorem generatePlatformContent_complete (bd : BusinessData)
    (ideas : List PostIdea) (platforms : List Str)
    (call : Nat → Nat → Except Str Str) (logOk : Nat → Nat → Bool) :
    generatePlatformContent bd ideas platforms call logOk =
        contentSpec bd ideas platforms call logOk ∧
      (generatePlatformContent bd ideas platforms call logOk).length =
        ideas.length * platforms.length ∧
      (∀ i idea j platform e, call i j = .error e →
        pairEntry bd call logOk i idea j platform =
          { idea := idea.concept, platform := platform
          , text := getFallbackContent idea platform
          , strategy := strategyOf bd }) := by
  have h1 : generatePlatformContent bd ideas platforms call logOk =
      contentSpec bd ideas platforms call logOk := by
    unfold generatePlatformContent contentSpec
    rw [genRows_eq_flatMap]
    rfl
  refine ⟨h1, ?_, ?_⟩
  · rw [h1]
    unfold contentSpec
    rw [List.length_flatMap]
    have hlen : ∀ p : Nat × PostIdea,
        ((platforms.enum.map fun q =>
          pairEntry bd call logOk p.1 p.2 q.1 q.2).length) = platforms.length := by
      intro p
      rw [List.length_map, List.enum_length]
    calc (ideas.enum.map fun p =>
            (platforms.enum.map fun q =>
              pairEntry bd call logOk p.1 p.2 q.1 q.2).length).sum
        = (ideas.enum.map fun _ => platforms.length).sum := by
          exact congrArg List.sum (List.map_congr_left fun p _ => hlen p)
      _ = ideas.enum.length * platforms.length := by
          rw [List.map_const', List.sum_replicate, smul_eq_mul]
      _ = ideas.length * platforms.length := by rw [List.enum_length]
  · intro i idea j platform e he
    simp [pairEntry, he]

/-- Witness for C6: one idea, two platforms, every model call failing. -/
theorem generatePlatformContent_complete_witness :
    generatePlatformContent sampleBusinessData solanaIdeas
          [cs "twitter", cs "instagram"] (fun _ _ => .error (cs "boom"))
          (fun _ _ => true) =
        contentSpec sampleBusinessData solanaIdeas [cs "twitter", cs "instagram"]
          (fun _ _ => .error (cs "boom")) (fun _ _ => true) ∧
      (generatePlatformContent sampleBusinessData solanaIdeas
          [cs "twitter", cs "instagram"] (fun _ _ => .error (cs "boom"))
          (fun _ _ => true)).length =
        solanaIdeas.length * [cs "twitter", cs "instagram"].length ∧
      pairEntry sampleBusinessData (fun _ _ => .error (cs "boom"))
          (fun _ _ => true) 0 ideaAlphaClaim 1 (cs "instagram") =
        { idea := ideaAlphaClaim.concept, platform := cs "instagram"
        , text := getFallbackContent ideaAlphaClaim (cs "instagram")
        , strategy := strategyOf sampleBusinessData } :=
  ⟨(generatePlatformContent_complete sampleBusinessData solanaIdeas
      [cs "twitter", cs "instagram"] (fun _ _ => .error (cs "boom"))
      (fun _ _ => true)).1,
    (generatePlatformContent_complete sampleBusinessData solanaIdeas
      [cs "twitter", cs "instagram"] (fun _ _ => .error (cs "boom"))
      (fun _ _ => true)).2.1,
    (generatePlatformContent_complete sampleBusinessData solanaIdeas
      [cs "twitter", cs "instagram"] (fun _ _ => .error (cs "boom"))
      (fun _ _ => true)).2.2 0 ideaAlphaClaim 1 (cs "instagram") (cs "boom") rfl⟩

/-- Monadic map over Except preserves length on success. -/
theorem mapM_ok_length {α β : Type} (f : α → Except Str β) :
    ∀ (l : List α) (out : List β), l.mapM f = .ok out → out.length = l.length := by
  intro l
  induction l with
  | nil =>
    intro out h
    simp only [List.mapM_nil, pure, Except.pure] at h
    injection h with h
    simp [← h]
  | cons a t ih =>
    intro out h
    rw [List.mapM_cons] at h
    cases hfa : f a with
    | error e => rw [hfa] at h; simp [Bind.bind, Except.bind] at h
    | ok b =>
      rw [hfa] at h
      cases hft : t.mapM f with
      | error e =>
        rw [hft] at h
        simp [Bind.bind, Except.bind] at h
      | ok bs =>
        rw [hft] at h
        simp only [Bind.bind, Except.bind, pure, Except.pure] at h
        injection h with h
        simp [← h, ih bs hft]

/-- Totality of the comparator relation. -/
theorem ideaBefore_total (a b : PostIdea) : ideaBefore a b ∨ ideaBefore b a := by
  unfold ideaBefore scoreCmp
  cases ha : effScore a <;> cases hb : effScore b <;> simp
  rename_i qa qb
  rcases le_total qb qa with h | h
  · exact Or.inl (by linarith)
  · exact Or.inr (by linarith)

/-- On numerically scored ideas the comparator order is the descending
score order. -/
theorem ideaBefore_iff_of_num (a b : PostIdea) (qa qb : Rat)
    (ha : effScore a = some qa) (hb : effScore b = some qb) :
    ideaBefore a b ↔ qb ≤ qa := by
  unfold ideaBefore scoreCmp
  rw [ha, hb]
  exact sub_nonpos

/-- The comparator relation is transitive across numerically scored
ideas. -/
theorem ideaBefore_trans_of_num (a b c : PostIdea)
    (ha : (effScore a).isSome) (hb : (effScore b).isSome)
    (hc : (effScore c).isSome) (hab : ideaBefore a b) (hbc : ideaBefore b c) :
    ideaBefore a c := by
  obtain ⟨qa, hqa⟩ := Option.isSome_iff_exists.mp ha
  obtain ⟨qb, hqb⟩ := Option.isSome_iff_exists.mp hb
  obtain ⟨qc, hqc⟩ := Option.isSome_iff_exists.mp hc
  rw [ideaBefore_iff_of_num a b qa qb hqa hqb] at hab
  rw [ideaBefore_iff_of_num b c qb qc hqb hqc] at hbc
  rw [ideaBefore_iff_of_num a c qa qc hqa hqc]
  linarith

/-- Inserting a numerically scored idea into a sorted list of numerically
scored ideas keeps the list sorted under the comparator. -/
theorem sorted_orderedInsert_num (a : PostIdea) (l : List PostIdea)
    (ha : (effScore a).isSome) (hl : ∀ x ∈ l, (effScore x).isSome)
    (hs : List.Sorted ideaBefore l) :
    List.Sorted ideaBefore (List.orderedInsert ideaBefore a l) := by
  induction l with
  | nil => simp [List.orderedInsert]
  | cons b t ih =>
    rw [List.orderedInsert]
    by_cases h : ideaBefore a b
    · rw [if_pos h]
      refine List.sorted_cons.mpr ⟨?_, hs⟩
      intro y hy
      rcases List.mem_cons.mp hy with rfl | hyt
      · exact h
      · exact ideaBefore_trans_of_num a b y ha
          (hl b (List.mem_cons_self b t)) (hl y (List.mem_cons_of_mem b hyt)) h
          ((List.sorted_cons.mp hs).1 y hyt)
    · rw [if_neg h]
      have hba : ideaBefore b a := (ideaBefore_total a b).resolve_left h
      have hst := List.sorted_cons.mp hs
      refine List.sorted_cons.mpr
        ⟨?_, ih (fun x hx => hl x (List.mem_cons_of_mem b hx)) hst.2⟩
      intro y hy
      rcases (List.mem_orderedInsert ideaBefore).mp hy with rfl | hyt
      · exact hba
      · exact hst.1 y hyt

/-- The modelled stable sort produces a comparator-sorted list whenever
all scores are numeric (as they are for well-typed parsed ideas). -/
theorem sorted_sortIdeas (l : List PostIdea)
    (h : ∀ x ∈ l, (effScore x).isSome) :
    List.Sorted ideaBefore (sortIdeas l) := by
  unfold sortIdeas
  induction l with
  | nil => simp
  | cons a t ih =>
    rw [List.insertionSort]
    have hperm := List.perm_insertionSort ideaBefore t
    refine sorted_orderedInsert_num a _ (h a (List.mem_cons_self a t)) ?_
      (ih fun x hx => h x (List.mem_cons_of_mem a hx))
    intro x hx
    exact h x (List.mem_cons_of_mem a (hperm.mem_iff.mp hx))

/-- C3 (amended): for every model response whose bracketed segment (first
bracket to last closing bracket) is itself a valid JSON array that maps
cleanly (no null elements) to ideas with numeric relevance scores, the
parser returns exactly those array elements with defaulted fields
(ideas), stable-sorted descending by relevance score and truncated to at
most 8, never dropping an element before truncation. -/
theorem parse_embedded_array (content s : Str) (elems : JsonList)
    (ideas : List PostIdea) (t : TrendData)
    (h1 : extractJsonArray content = some s)
    (h2 : jsonParse s = some (.arr elems))
    (h3 : mapIdeas elems.toList = .ok ideas)
    (hnum : ∀ p ∈ ideas, (effScore p).isSome) :
    parsePostIdeasFromResponse content t = .ok ((sortIdeas ideas).take 8) ∧
      ((sortIdeas ideas).take 8).length ≤ 8 ∧
      List.Sorted ideaBefore ((sortIdeas ideas).take 8) ∧
      ((sortIdeas ideas).take 8).Subperm ideas ∧
      ideas.length = elems.toList.length := by
  refine ⟨?_, ?_, ?_, ?_, ?_⟩
  · unfold parsePostIdeasFromResponse
    simp only [h1, h2, h3]
  · rw [List.length_take]
    exact min_le_left _ _
  · exact (sorted_sortIdeas ideas hnum).sublist (List.take_sublist _ _)
  · exact ((List.take_sublist _ _).subperm).trans
      (List.perm_insertionSort ideaBefore ideas).subperm
  · exact mapM_ok_length _ _ ideas h3 |>.trans (by rw [List.enum_length])

/-- Witness for C3: prose-wrapped single-element array response. -/
theorem parse_embedded_array_witness :
    parsePostIdeasFromResponse cleanProseResponse emptyTrendData =
        .ok ((sortIdeas solanaIdeas).take 8) ∧
      ((sortIdeas solanaIdeas).take 8).length ≤ 8 ∧
      List.Sorted ideaBefore ((sortIdeas solanaIdeas).take 8) ∧
      ((sortIdeas solanaIdeas).take 8).Subperm solanaIdeas ∧
      solanaIdeas.length = solanaJson.toList.length :=
  parse_embedded_array cleanProseResponse solanaArray solanaJson solanaIdeas
    emptyTrendData rfl rfl rfl
    (by
      intro p hp
      simp only [solanaIdeas, List.mem_singleton] at hp
      subst hp
      rfl)

/-- Counterexample for C3 as stated: `proseBracketResponse` contains the
valid JSON array `embeddedArray` in surrounding prose, but the greedy
bracket match swallows the prose tags, parsing fails, and the fixed
fallback set is returned instead of the array contents. -/
theorem prose_brackets_defeat_extraction :
    jsonParse embeddedArray =
        some (.arr (.cons (.obj (.fcons (cs "concept") (.str (cs "Alpha drop")) .fnil)) .nil)) ∧
      parsePostIdeasFromResponse proseBracketResponse emptyTrendData =
        .ok baseFallbackIdeas ∧
      parsePostIdeasFromResponse proseBracketResponse emptyTrendData ≠
        .ok [ideaAlphaClaim] := by
  have hbase : parsePostIdeasFromResponse proseBracketResponse emptyTrendData =
      .ok baseFallbackIdeas := rfl
  refine ⟨rfl, hbase, fun h => ?_⟩
  rw [hbase] at h
  injection h with h1
  have h2 := congrArg List.length h1
  simp [baseFallbackIdeas] at h2

/-- The fallback list always has exactly five ideas, whatever the two
upgraded slots are. -/
theorem fallback_bind_length (e1 e2 : Except Str Json) (f : List PostIdea)
    (h : (do
        let ts0 ← e1
        let ts2 ← e2
        pure (mkFallbackList ts0 ts2) : Except Str (List PostIdea)) = .ok f) :
    f.length = 5 := by
  cases e1 with
  | error e => simp [Bind.bind, Except.bind] at h
  | ok a =>
    cases e2 with
    | error e => simp [Bind.bind, Except.bind] at h
    | ok b =>
      simp only [Bind.bind, Except.bind, pure, Except.pure] at h
      injection h with h
      simp [← h, mkFallbackList]

/-- A successful fallback computation yields five ideas. -/
theorem getFallbackPostIdeas_length (t : TrendData) (f : List PostIdea)
    (h : getFallbackPostIdeas t = .ok f) : f.length = 5 := by
  unfold getFallbackPostIdeas at h
  exact fallback_bind_length _ _ f h

/-- C4 (amended): whenever the fallback computation itself succeeds (it
does on every well-typed snapshot), a response with no extractable
bracketed segment, and likewise a response whose extracted segment fails
to parse as JSON, yields exactly the fixed fallback set, which has five
ideas (> 0). A response that parses to the valid empty array, however,
yields the empty idea list, which is what the counterexample shows. -/
theorem parse_fallback_nonempty (content : Str) (t : TrendData)
    (f : List PostIdea) (hf : getFallbackPostIdeas t = .ok f) :
    f.length = 5 ∧
      (extractJsonArray content = none →
        parsePostIdeasFromResponse content t = .ok f) ∧
      (∀ s, extractJsonArray content = some s → jsonParse s = none →
        parsePostIdeasFromResponse content t = .ok f) := by
  refine ⟨getFallbackPostIdeas_length t f hf, ?_, ?_⟩
  · intro h
    unfold parsePostIdeasFromResponse
    rw [h]
    exact hf
  · intro s h1 h2
    unfold parsePostIdeasFromResponse
    simp only [h1, h2]
    exact hf

/-- Witness for C4: a bracket-free response and a response whose
extracted segment is not JSON both produce the five fallback ideas. -/
theorem parse_fallback_nonempty_witness :
    baseFallbackIdeas.length = 5 ∧
      parsePostIdeasFromResponse (cs "no array in sight") emptyTrendData =
        .ok baseFallbackIdeas ∧
      parsePostIdeasFromResponse proseBracketResponse emptyTrendData =
        .ok baseFallbackIdeas :=
  ⟨(parse_fallback_nonempty (cs "no array in sight") emptyTrendData
      baseFallbackIdeas rfl).1,
    (parse_fallback_nonempty (cs "no array in sight") emptyTrendData
      baseFallbackIdeas rfl).2.1 rfl,
    (parse_fallback_nonempty proseBracketResponse emptyTrendData
      baseFallbackIdeas rfl).2.2
      (cs "[1] and [2]: [\x7b\"concept\": \"Alpha drop\"\x7d]") rfl rfl⟩

/-- Counterexample for C4 as stated: the response "[]" contains a valid
(empty) JSON array, parses successfully, and produces the empty idea
list, so the parser does not always return a non-empty list. -/
theorem empty_array_empty_ideas :
    parsePostIdeasFromResponse (cs "[]") emptyTrendData = .ok [] ∧
      ¬0 < ([] : List PostIdea).length :=
  ⟨rfl, by decide⟩

/-- Splitting a successful Except bind into its two successful stages. -/
theorem except_bind_ok {α β : Type} (x : Except Str α) (f : α → Except Str β)
    (b : β) (h : (x >>= f) = .ok b) : ∃ a, x = .ok a ∧ f a = .ok b := by
  cases x with
  | error e => simp [Bind.bind, Except.bind] at h
  | ok a => exact ⟨a, rfl, by simpa [Bind.bind, Except.bind] using h⟩

/-- A successful try-block run returns the success record: its metadata
carries the pre-computed enabled-source list, its snapshot is the
aggregator output, and its status is "success". -/
theorem runPipelineBody_ok_shape (cfg : Config) (options : RunOptions)
    (env : PipelineEnv) (r : PipelineResult)
    (h : runPipelineBody cfg options env = .ok r) :
    r.meta.sourcesUsed = enabledSources cfg.sources ∧
      r.trends = analyzeTrends cfg.sources env.adapters ∧
      r.status = cs "success" := by
  unfold runPipelineBody at h
  obtain ⟨kws, hk, h⟩ := except_bind_ok _ _ _ h
  obtain ⟨ideas, hi, h⟩ := except_bind_ok _ _ _ h
  obtain ⟨content, hc, h⟩ := except_bind_ok _ _ _ h
  obtain ⟨cp, hp, h⟩ := except_bind_ok _ _ _ h
  obtain ⟨u, hu, h⟩ := except_bind_ok _ _ _ h
  simp only [pure, Except.pure] at h
  injection h with h
  subst h
  exact ⟨rfl, rfl, rfl⟩

/-- When every adapter fails, the aggregator yields the empty snapshot. -/
theorem analyzeTrends_allFail (cfg : SourcesConfig) (oc : AdapterOutcomes)
    (h : adaptersAllFailed oc) : analyzeTrends cfg oc = emptyTrendData := by
  obtain ⟨h1, h2, h3, h4, h5⟩ := h
  obtain ⟨e1, he1⟩ : ∃ e, oc.google = .error e := by
    cases hg : oc.google with
    | error e => exact ⟨e, rfl⟩
    | ok v => rw [hg] at h1; exact absurd h1 (by simp [isThrown])
  obtain ⟨e2, he2⟩ : ∃ e, oc.xcom = .error e := by
    cases hg : oc.xcom with
    | error e => exact ⟨e, rfl⟩
    | ok v => rw [hg] at h2; exact absurd h2 (by simp [isThrown])
  obtain ⟨e3, he3⟩ : ∃ e, oc.coingecko = .error e := by
    cases hg : oc.coingecko with
    | error e => exact ⟨e, rfl⟩
    | ok v => rw [hg] at h3; exact absurd h3 (by simp [isThrown])
  obtain ⟨e4, he4⟩ : ∃ e, oc.reddit = .error e := by
    cases hg : oc.reddit with
    | error e => exact ⟨e, rfl⟩
    | ok v => rw [hg] at h4; exact absurd h4 (by simp [isThrown])
  obtain ⟨e5, he5⟩ : ∃ e, oc.news = .error e := by
    cases hg : oc.news with
    | error e => exact ⟨e, rfl⟩
    | ok v => rw [hg] at h5; exact absurd h5 (by simp [isThrown])
  cases hg : cfg.googleTrends <;> cases hx : cfg.xcom <;> cases hc : cfg.coingecko <;>
    simp [analyzeTrends, hg, hx, hc, he1, he2, he3, he4, he5, settle,
      settledOrEmpty, emptyTrendData]

/-- C2 (amended): every exception raised inside the try-guarded steps
(keyword selection through content generation, persistence and the log
flush) is caught: runPipeline still returns normally, with the structured
error result whose status is "error", whose keyword/idea/content
collections are empty, whose snapshot has all five source lists empty,
whose metadata (timestamp, elapsed, sourcesUsed, zero counts) is present,
and whose error field carries the captured message. An exception in the
pre-try output-directory clear/recreate, however, escapes uncaught, which
is what the counterexample shows. -/
theorem runPipeline_structured_error (cfg : Config) (options : RunOptions)
    (env : PipelineEnv) (msg : Str) (h1 : env.setup = .ok ())
    (h2 : runPipelineBody cfg options env = .error msg) :
    runPipeline cfg options env = .ok (errorResult cfg options env msg) ∧
      (errorResult cfg options env msg).status = cs "error" ∧
      (errorResult cfg options env msg).keywords = [] ∧
      (errorResult cfg options env msg).postIdeas = [] ∧
      (errorResult cfg options env msg).content = [] ∧
      (errorResult cfg options env msg).currentPost = none ∧
      (errorResult cfg options env msg).trends = emptyTrendData ∧
      (errorResult cfg options env msg).error = some msg ∧
      (errorResult cfg options env msg).meta.sourcesUsed =
        enabledSources cfg.sources := by
  refine ⟨?_, rfl, rfl, rfl, rfl, rfl, rfl, rfl, rfl⟩
  unfold runPipeline
  simp only [h1, h2]

/-- Witness for C2: the idea-generation model call rejects; the run still
returns the structured error result. -/
theorem runPipeline_structured_error_witness :
    runPipeline cfgAllOn optsSimple envIdeasFail =
        .ok (errorResult cfgAllOn optsSimple envIdeasFail
          (cs "Claude API request failed")) ∧
      (errorResult cfgAllOn optsSimple envIdeasFail
          (cs "Claude API request failed")).status = cs "error" ∧
      (errorResult cfgAllOn optsSimple envIdeasFail
          (cs "Claude API request failed")).keywords = [] ∧
      (errorResult cfgAllOn optsSimple envIdeasFail
          (cs "Claude API request failed")).postIdeas = [] ∧
      (errorResult cfgAllOn optsSimple envIdeasFail
          (cs "Claude API request failed")).content = [] ∧
      (errorResult cfgAllOn optsSimple envIdeasFail
          (cs "Claude API request failed")).currentPost = none ∧
      (errorResult cfgAllOn optsSimple envIdeasFail
          (cs "Claude API request failed")).trends = emptyTrendData ∧
      (errorResult cfgAllOn optsSimple envIdeasFail
          (cs "Claude API request failed")).error =
        some (cs "Claude API request failed") ∧
      (errorResult cfgAllOn optsSimple envIdeasFail
          (cs "Claude API request failed")).meta.sourcesUsed =
        enabledSources cfgAllOn.sources :=
  runPipeline_structured_error cfgAllOn optsSimple envIdeasFail
    (cs "Claude API request failed") rfl rfl

/-- Counterexample for C2 as stated: when the pre-try clear/recreate of
the output directory fails (part of every run, before any guarded step),
runPipeline rejects with the raw exception instead of returning a
structured error result. -/
theorem setup_failure_rejects :
    runPipeline cfgAllOn optsSimple envSetupFail =
      .error (cs "EACCES: permission denied, rmdir current_post") := rfl

/-- C7 (amended): the sourcesUsed metadata lists exactly the sources
enabled in the configuration, independent of whether their adapters
returned data; in particular a run in which all five adapters fail still
reports the full enabled-source list (empty only if all sources are
disabled) while its snapshot has five empty lists. -/
theorem sourcesUsed_reflects_enablement (cfg : Config) (options : RunOptions)
    (env : PipelineEnv) (r : PipelineResult)
    (h : runPipeline cfg options env = .ok r) :
    r.meta.sourcesUsed = enabledSources cfg.sources ∧
      (adaptersAllFailed env.adapters → r.trends = emptyTrendData) := by
  unfold runPipeline at h
  cases hs : env.setup with
  | error e => rw [hs] at h; simp at h
  | ok u =>
    rw [hs] at h
    cases hb : runPipelineBody cfg options env with
    | ok r2 =>
      rw [hb] at h
      injection h with h
      subst h
      obtain ⟨hsrc, htr, _⟩ := runPipelineBody_ok_shape cfg options env r2 hb
      exact ⟨hsrc, fun hall => htr.trans (analyzeTrends_allFail _ _ hall)⟩
    | error msg =>
      rw [hb] at h
      injection h with h
      subst h
      exact ⟨rfl, fun _ => rfl⟩

/-- Witness for C7: the all-adapters-fail run completes successfully with
the enabled-source list in its metadata and an empty snapshot. -/
theorem sourcesUsed_reflects_enablement_witness :
    (errorFreeRun).meta.sourcesUsed = enabledSources cfgAllOn.sources ∧
      (adaptersAllFailed envAllFail.adapters → (errorFreeRun).trends = emptyTrendData) :=
  sourcesUsed_reflects_enablement cfgAllOn optsSimple envAllFail errorFreeRun rfl

/-- Counterexample for C7 as stated: with all five sources enabled and
all five adapters failing, the run succeeds with five empty lists, yet
sourcesUsed is the full five-name list, not the empty list the claim
requires. -/
theorem allFail_sourcesUsed_nonempty :
    (runPipeline cfgAllOn optsSimple envAllFail).toOption.map
        (fun r => r.meta.sourcesUsed) =
      some [cs "google", cs "xcom", cs "coingecko", cs "reddit", cs "news"] ∧
      (runPipeline cfgAllOn optsSimple envAllFail).toOption.map
          (fun r => r.status) = some (cs "success") ∧
      (runPipeline cfgAllOn optsSimple envAllFail).toOption.map
          (fun r => r.trends) = some emptyTrendData ∧
      [cs "google", cs "xcom", cs "coingecko", cs "reddit", cs "news"] ≠
        ([] : List Str) :=
  ⟨rfl, rfl, rfl, by decide⟩

/-- In a strictly increasing list the last element bounds every member. -/
theorem le_getLast_of_pairwise_lt (l : List Nat) (hs : l.Pairwise (· < ·)) :
    ∀ a ∈ l, ∀ b, l.getLast? = some b → a ≤ b := by
  induction l with
  | nil => intro a ha; cases ha
  | cons x t ih =>
    intro a ha b hb
    rcases List.mem_cons.mp ha with rfl | hat
    · cases t with
      | nil =>
        simp only [List.getLast?_singleton, Option.some.injEq] at hb
        omega
      | cons y u =>
        rw [List.getLast?_cons_cons] at hb
        have hbmem : b ∈ y :: u := List.mem_of_mem_getLast? hb
        exact le_of_lt ((List.pairwise_cons.mp hs).1 b hbmem)
    · cases t with
      | nil => cases hat
      | cons y u =>
        rw [List.getLast?_cons_cons] at hb
        exact ih (List.pairwise_cons.mp hs).2 a hat b hb

/-- A nonnegative backwards-search result is an actual occurrence of the
pattern. -/
theorem jsLastIndexOfFrom_occurs (s pat : Str) (stop : Nat)
    (h : 0 ≤ jsLastIndexOfFrom s pat stop) :
    occursAt pat s (jsLastIndexOfFrom s pat stop).toNat = true := by
  cases hg : ((List.range (stop + 1)).filter (occursAt pat s)).getLast? with
  | none =>
    have hval : jsLastIndexOfFrom s pat stop = -1 := by
      unfold jsLastIndexOfFrom
      rw [hg]
    rw [hval] at h
    norm_num at h
  | some i =>
    have hval : jsLastIndexOfFrom s pat stop = (i : Int) := by
      unfold jsLastIndexOfFrom
      rw [hg]
    have hm := List.mem_of_mem_getLast? hg
    have hocc := (List.mem_filter.mp hm).2
    rw [hval]
    simpa using hocc

/-- The backwards search returns the last occurrence: no occurrence
within the stop bound lies beyond it. -/
theorem le_jsLastIndexOfFrom (s pat : Str) (stop i : Nat)
    (hi : occursAt pat s i = true) (hle : i ≤ stop) :
    (i : Int) ≤ jsLastIndexOfFrom s pat stop := by
  unfold jsLastIndexOfFrom
  have hmem : i ∈ (List.range (stop + 1)).filter (occursAt pat s) :=
    List.mem_filter.mpr ⟨List.mem_range.mpr (by omega), hi⟩
  cases hg : ((List.range (stop + 1)).filter (occursAt pat s)).getLast? with
  | none =>
    rw [List.getLast?_eq_none_iff] at hg
    rw [hg] at hmem
    cases hmem
  | some j =>
    have hij : i ≤ j :=
      le_getLast_of_pairwise_lt _
        (List.Pairwise.filter _ (List.pairwise_lt_range (stop + 1))) i hmem j hg
    simp only [hg]
    omega

/-- C5 (amended): for the strict-length platform, every text the cleanup
pass produces from a model response has length at most 280; when the
truncation pass runs, it cuts at a natural boundary in priority order:
at the last paragraph break of the 280-character window when that break
lies after position 150, else at the last sentence-ending punctuation of
the window after position 150, else at the last word boundary at or
before position 277 (the budget minus the appended ellipsis, which is
added only in this last-resort case), and that word-boundary search
misses no space within its window. The per-pair fallback text is not
subject to the ceiling; the counterexample exhibits one longer than 280. -/
theorem cleanup_twitter_contract :
    (∀ content : Str,
      (cleanupGeneratedContent content (cs "twitter")).length ≤ 280) ∧
      (∀ s : Str,
        (twLastPara s > 150 →
          truncateTwitter s = jsTrim (jsSubstring (twSlice s) 0 (twLastPara s)) ∧
            occursAt (cs "\n\n") (twSlice s) (twLastPara s).toNat = true) ∧
          (¬twLastPara s > 150 → twLastSentence s > 150 →
            truncateTwitter s =
                jsTrim (jsSubstring (twSlice s) 0 (twLastSentence s + 1)) ∧
              (occursAt (cs ". ") (twSlice s) (twLastSentence s).toNat = true ∨
                occursAt (cs "? ") (twSlice s) (twLastSentence s).toNat = true ∨
                occursAt (cs "! ") (twSlice s) (twLastSentence s).toNat = true)) ∧
          (¬twLastPara s > 150 → ¬twLastSentence s > 150 →
            truncateTwitter s =
                jsTrim (jsSubstring (twSlice s) 0
                    (if twLastSpace s > 0 then twLastSpace s else 277)) ++
                  cs "..." ∧
              (twLastSpace s > 0 →
                occursAt [' '] (twSlice s) (twLastSpace s).toNat = true) ∧
              (∀ i : Nat, occursAt [' '] (twSlice s) i = true → i ≤ 277 →
                (i : Int) ≤ twLastSpace s))) := by
  refine ⟨cleanup_twitter_length_le, fun s => ⟨?_, ?_, ?_⟩⟩
  · intro hp
    constructor
    · unfold truncateTwitter
      rw [if_pos hp]
    · unfold twLastPara jsLastIndexOf at hp ⊢
      exact jsLastIndexOfFrom_occurs _ _ _ (by omega)
  · intro hp hsen
    constructor
    · unfold truncateTwitter
      rw [if_neg hp, if_pos hsen]
    · unfold twLastSentence at hsen ⊢
      rcases max_choice
          (max (jsLastIndexOf (twSlice s) (cs ". "))
            (jsLastIndexOf (twSlice s) (cs "? ")))
          (jsLastIndexOf (twSlice s) (cs "! ")) with h3 | h3
      · rw [h3] at hsen ⊢
        rcases max_choice (jsLastIndexOf (twSlice s) (cs ". "))
            (jsLastIndexOf (twSlice s) (cs "? ")) with h2 | h2
        · rw [h2] at hsen ⊢
          refine Or.inl ?_
          unfold jsLastIndexOf at hsen ⊢
          exact jsLastIndexOfFrom_occurs _ _ _ (by omega)
        · rw [h2] at hsen ⊢
          refine Or.inr (Or.inl ?_)
          unfold jsLastIndexOf at hsen ⊢
          exact jsLastIndexOfFrom_occurs _ _ _ (by omega)
      · rw [h3] at hsen ⊢
        refine Or.inr (Or.inr ?_)
        unfold jsLastIndexOf at hsen ⊢
        exact jsLastIndexOfFrom_occurs _ _ _ (by omega)
  · intro hp hsen
    refine ⟨?_, ?_, ?_⟩
    · unfold truncateTwitter
      rw [if_neg hp, if_neg hsen]
    · intro hsp
      unfold twLastSpace at hsp ⊢
      exact jsLastIndexOfFrom_occurs _ _ _ (by omega)
    · intro i hi hle
      unfold twLastSpace
      exact le_jsLastIndexOfFrom _ _ _ _ hi hle

/-- Witness for C5: a short text passes untouched, and a 360-character
single-paragraph text is truncated at its last in-window space (an actual
space, maximal among the spaces at or before 277) with the ellipsis. -/
theorem cleanup_twitter_contract_witness :
    (cleanupGeneratedContent (cs "gm frens") (cs "twitter")).length ≤ 280 ∧
      truncateTwitter longTweet =
        jsTrim (jsSubstring (twSlice longTweet) 0
            (if twLastSpace longTweet > 0 then twLastSpace longTweet else 277)) ++
          cs "..." ∧
      occursAt [' '] (twSlice longTweet) (twLastSpace longTweet).toNat = true ∧
      (275 : Int) ≤ twLastSpace longTweet :=
  ⟨cleanup_twitter_contract.1 (cs "gm frens"),
    ((cleanup_twitter_contract.2 longTweet).2.2 (by decide) (by decide)).1,
    ((cleanup_twitter_contract.2 longTweet).2.2 (by decide) (by decide)).2.1
      (by decide),
    ((cleanup_twitter_contract.2 longTweet).2.2 (by decide) (by decide)).2.2 275
      (by decide) (by decide)⟩

end TrendGen
